import Mathlib

/-!
# The e1000 driver of `kernel/e1000.c`

A shallow embedding of the three entry points of the driver (`e1000_init`,
`e1000_transmit`, `e1000_intr` with its helper `e1000_recv`) as functions on an
explicit driver state.

* The two descriptor rings and the two buffer-tracking arrays are functions from
  the slot index; an index outside `0..15` is an out-of-bounds access and ends
  the call with `Outcome.fault`.
* Pointers are natural numbers, `0` is the null pointer; the heap of `struct mbuf`
  is the function `State.mem`.
* Machine integers are natural numbers, reduced `% 2^w` where the C code stores
  into a narrower field.
* Every store of the driver and every call to a collaborator (`mbufalloc`, `net_rx`,
  `printf`) is appended to `State.trace`, oldest first.
* Hardware never runs inside a call: descriptors and registers change only by the
  driver's own stores.
-/

namespace E1000

/-- The value of `TX_RING_SIZE` (line 11). -/
def TX_RING_SIZE : Nat := 16

/-- The value of `RX_RING_SIZE` (line 15). -/
def RX_RING_SIZE : Nat := 16

/-- A pointer; `0` is the null pointer. -/
abbrev Ptr := Nat

/-- The fields of `struct mbuf` (net.h) that the driver touches. -/
structure mbuf where
  head : Nat
  len : Nat
deriving DecidableEq

/-- The legacy transmit descriptor `struct tx_desc` (e1000_dev.h): `addr` is 64 bits wide,
`length` and `special` 16 bits, the other fields 8 bits. -/
structure tx_desc where
  addr : Nat
  length : Nat
  cso : Nat
  cmd : Nat
  status : Nat
  css : Nat
  special : Nat
deriving DecidableEq

/-- The receive descriptor `struct rx_desc` (e1000_dev.h): `addr` is 64 bits wide,
`length`, `csum` and `special` 16 bits, `status` and `errors` 8 bits. -/
structure rx_desc where
  addr : Nat
  length : Nat
  csum : Nat
  status : Nat
  errors : Nat
  special : Nat
deriving DecidableEq

/-- The constants of the header `e1000_dev.h` that `e1000.c` uses. The header is a
separate file of the kernel, so the driver functions take its constants as a parameter.
Register constants are indices into the array `regs` of 32-bit words. -/
structure Hdr where
  E1000_CTL : Nat
  E1000_ICR : Nat
  E1000_IMS : Nat
  E1000_RCTL : Nat
  E1000_TCTL : Nat
  E1000_TIPG : Nat
  E1000_RDBAL : Nat
  E1000_RDTR : Nat
  E1000_RADV : Nat
  E1000_RDH : Nat
  E1000_RDT : Nat
  E1000_RDLEN : Nat
  E1000_TDBAL : Nat
  E1000_TDLEN : Nat
  E1000_TDH : Nat
  E1000_TDT : Nat
  E1000_MTA : Nat
  E1000_RA : Nat
  E1000_CTL_RST : Nat
  E1000_TCTL_EN : Nat
  E1000_TCTL_PSP : Nat
  E1000_TCTL_CT_SHIFT : Nat
  E1000_TCTL_COLD_SHIFT : Nat
  E1000_RCTL_EN : Nat
  E1000_RCTL_BAM : Nat
  E1000_RCTL_SZ_2048 : Nat
  E1000_RCTL_SECRC : Nat
  E1000_TXD_CMD_EOP : Nat
  E1000_TXD_CMD_RS : Nat
  E1000_TXD_STAT_DD : Nat
  E1000_RXD_STAT_DD : Nat
  sizeof_tx_desc : Nat
  sizeof_rx_desc : Nat

/-- The constants as the e1000 register map gives them (byte offsets of the Intel 8254x
manual divided by 4, the done bit being the low bit of the status byte); this is the
header the concrete evaluations below run with. -/
def e1000_dev : Hdr where
  E1000_CTL := 0x00000 / 4
  E1000_ICR := 0x000C0 / 4
  E1000_IMS := 0x000D0 / 4
  E1000_RCTL := 0x00100 / 4
  E1000_TCTL := 0x00400 / 4
  E1000_TIPG := 0x00410 / 4
  E1000_RDBAL := 0x02800 / 4
  E1000_RDTR := 0x02820 / 4
  E1000_RADV := 0x0282C / 4
  E1000_RDH := 0x02810 / 4
  E1000_RDT := 0x02818 / 4
  E1000_RDLEN := 0x02808 / 4
  E1000_TDBAL := 0x03800 / 4
  E1000_TDLEN := 0x03808 / 4
  E1000_TDH := 0x03810 / 4
  E1000_TDT := 0x03818 / 4
  E1000_MTA := 0x05200 / 4
  E1000_RA := 0x05400 / 4
  E1000_CTL_RST := 0x00400000
  E1000_TCTL_EN := 0x00000002
  E1000_TCTL_PSP := 0x00000008
  E1000_TCTL_CT_SHIFT := 4
  E1000_TCTL_COLD_SHIFT := 12
  E1000_RCTL_EN := 0x00000002
  E1000_RCTL_BAM := 0x00008000
  E1000_RCTL_SZ_2048 := 0x00000000
  E1000_RCTL_SECRC := 0x04000000
  E1000_TXD_CMD_EOP := 0x01
  E1000_TXD_CMD_RS := 0x08
  E1000_TXD_STAT_DD := 0x00000001
  E1000_RXD_STAT_DD := 0x01
  sizeof_tx_desc := 16
  sizeof_rx_desc := 16

/-- The descriptor fields the driver stores into, for the trace. -/
inductive Field where
  | addr
  | length
  | cmd
  | status
deriving DecidableEq

/-- One observable action of the driver: a store or a call to a collaborator. -/
inductive Event where
  | reg_write (r : Nat) (v : Nat)
  | memset_tx_ring
  | memset_rx_ring
  | tx_ring_write (i : Nat) (f : Field) (v : Nat)
  | tx_mbufs_write (i : Nat) (p : Ptr)
  | rx_ring_write (i : Nat) (f : Field) (v : Nat)
  | rx_mbufs_write (i : Nat) (p : Ptr)
  | mbuf_len_write (p : Ptr) (v : Nat)
  | mbufalloc (p : Ptr)
  | mbuffree (p : Ptr)
  | net_rx (p : Ptr) (b : mbuf)
  | printf
deriving DecidableEq

/-- The driver state: the four static arrays, the device registers behind `regs`,
the spinlock `e1000_lock`, the heap of mbufs, the results the allocator will give to the
coming `mbufalloc` calls, and the trace of actions so far. -/
structure State where
  tx_ring : Nat → tx_desc
  tx_mbufs : Nat → Ptr
  rx_ring : Nat → rx_desc
  rx_mbufs : Nat → Ptr
  regs : Nat → Nat
  locked : Bool
  mem : Ptr → mbuf
  allocs : List Ptr
  trace : List Event

/-- How a call of a driver function ends: `ret v s` when it returns `v`; `panic s` when it
reaches a `panic(...)`; `stuck s` when it waits in `acquire` for a lock that nobody
releases, so that it never returns; `fault s` when it indexes an array out of bounds or
dereferences the null pointer. The state is the one at that moment. -/
inductive Outcome (α : Type) where
  | ret (v : α) (s : State)
  | panic (s : State)
  | stuck (s : State)
  | fault (s : State)

/-- The returned value, when the call returned. -/
def Outcome.returned {α : Type} : Outcome α → Option α
  | .ret v _ => some v
  | .panic _ => none
  | .stuck _ => none
  | .fault _ => none

/-- The driver state when control left the call (by return, or at the failure). -/
def Outcome.state {α : Type} : Outcome α → State
  | .ret _ s => s
  | .panic s => s
  | .stuck s => s
  | .fault s => s

/-- Array store `a[i] = v`. -/
def upd {α : Type} (a : Nat → α) (i : Nat) (v : α) : Nat → α :=
  fun j => if j = i then v else a j

/-- Record an action in the trace. -/
def State.log (s : State) (e : Event) : State :=
  { s with trace := s.trace ++ [e] }

/-- The store `regs[r] = v` into a 32-bit register. -/
def reg_write (s : State) (r v : Nat) : State :=
  { s with regs := upd s.regs r (v % 2 ^ 32), trace := s.trace ++ [.reg_write r (v % 2 ^ 32)] }

/-- The value `v` as a descriptor field of kind `f` holds it: `length` is 16 bits wide,
`cmd` and `status` 8 bits; `addr` is 64 bits wide and receives a pointer, itself 64 bits
wide, which the cast `(uint64)` leaves as it is. -/
def Field.fit : Field → Nat → Nat
  | .addr, v => v
  | .length, v => v % 2 ^ 16
  | .cmd, v => v % 2 ^ 8
  | .status, v => v % 2 ^ 8

/-- The transmit descriptor `d` after the store `d.f = v`. -/
def tx_desc.set (d : tx_desc) : Field → Nat → tx_desc
  | .addr, v => { d with addr := Field.fit .addr v }
  | .length, v => { d with length := Field.fit .length v }
  | .cmd, v => { d with cmd := Field.fit .cmd v }
  | .status, v => { d with status := Field.fit .status v }

/-- The receive descriptor `d` after the store `d.f = v` (a receive descriptor has no
`cmd`, and the driver stores into none). -/
def rx_desc.set (d : rx_desc) : Field → Nat → rx_desc
  | .addr, v => { d with addr := Field.fit .addr v }
  | .length, v => { d with length := Field.fit .length v }
  | .cmd, _ => d
  | .status, v => { d with status := Field.fit .status v }

/-- The store `tx_ring[i].f = v`. -/
def tx_ring_write (s : State) (i : Nat) (f : Field) (v : Nat) : State :=
  { s with tx_ring := upd s.tx_ring i ((s.tx_ring i).set f v),
           trace := s.trace ++ [.tx_ring_write i f (f.fit v)] }

/-- The store `tx_mbufs[i] = p`. -/
def tx_mbufs_write (s : State) (i : Nat) (p : Ptr) : State :=
  { s with tx_mbufs := upd s.tx_mbufs i p, trace := s.trace ++ [.tx_mbufs_write i p] }

/-- The store `rx_ring[i].f = v`. -/
def rx_ring_write (s : State) (i : Nat) (f : Field) (v : Nat) : State :=
  { s with rx_ring := upd s.rx_ring i ((s.rx_ring i).set f v),
           trace := s.trace ++ [.rx_ring_write i f (f.fit v)] }

/-- The store `rx_mbufs[i] = p`. -/
def rx_mbufs_write (s : State) (i : Nat) (p : Ptr) : State :=
  { s with rx_mbufs := upd s.rx_mbufs i p, trace := s.trace ++ [.rx_mbufs_write i p] }

/-- The store `p->len = v` (`len` is an `unsigned int`). -/
def mbuf_len_write (s : State) (p : Ptr) (v : Nat) : State :=
  { s with mem := upd s.mem p { s.mem p with len := v % 2 ^ 32 },
           trace := s.trace ++ [.mbuf_len_write p (v % 2 ^ 32)] }

/-- Modelled from the spec: the lock primitive of spinlock.c is missing here; the spec
treats it as an opaque mutual-exclusion capability. `initlock` leaves the lock free. -/
def initlock (s : State) : State :=
  { s with locked := false }

/-- Modelled from the spec: the lock primitive of spinlock.c is missing here. `acquire`
takes the lock when it is free; on a held lock it does not return (`none`), as no other
context runs that could release it. -/
def acquire (s : State) : Option State :=
  if s.locked then none else some { s with locked := true }

/-- Modelled from the spec: the lock primitive of spinlock.c is missing here. `release`
frees the lock. -/
def release (s : State) : State :=
  { s with locked := false }

/-- Modelled from the spec: the allocator of net.c is missing here; the spec gives its contract
as `allocate_buffer() -> Buffer | Err(OutOfMemory)`. The call takes the next result the
allocator has in store, `0` (null) standing for the failure. -/
def mbufalloc (s : State) : Ptr × State :=
  match s.allocs with
  | [] => (0, s.log (.mbufalloc 0))
  | p :: rest => (p, { s with allocs := rest, trace := s.trace ++ [.mbufalloc p] })

/-- Modelled from the spec: the network stack of net.c is missing here; the spec gives its
contract as `deliver_received_frame(Buffer)`. The call is recorded with the buffer's
contents at that moment. -/
def net_rx (s : State) (p : Ptr) : State :=
  s.log (.net_rx p (s.mem p))

/-- The console output `printf(...)`, recorded only. -/
def printf (s : State) : State :=
  s.log .printf

/-- The call `memset(tx_ring, 0, sizeof(tx_ring))` (line 43). -/
def memset_tx_ring (s : State) : State :=
  { s with tx_ring := fun i => if i < TX_RING_SIZE then ⟨0, 0, 0, 0, 0, 0, 0⟩ else s.tx_ring i,
           trace := s.trace ++ [.memset_tx_ring] }

/-- The call `memset(rx_ring, 0, sizeof(rx_ring))` (line 55). -/
def memset_rx_ring (s : State) : State :=
  { s with rx_ring := fun i => if i < RX_RING_SIZE then ⟨0, 0, 0, 0, 0, 0⟩ else s.rx_ring i,
           trace := s.trace ++ [.memset_rx_ring] }

/-- The body of the transmit loop of `e1000_init` (lines 45-46). -/
def e1000_init_tx_slot (H : Hdr) (s : State) (i : Nat) : State :=
  tx_mbufs_write (tx_ring_write s i .status H.E1000_TXD_STAT_DD) i 0

/-- The receive loop of `e1000_init` (lines 56-61) over the slots still to fill: a failed
allocation panics. -/
def e1000_init_rx : List Nat → State → Outcome Unit
  | [], s => .ret () s
  | i :: rest, s =>
    let r := mbufalloc s
    let s1 := rx_mbufs_write r.2 i r.1
    if r.1 = 0 then .panic s1
    else e1000_init_rx rest (rx_ring_write s1 i .addr (s1.mem r.1).head)

/-- The rest of `e1000_init` after the receive loop (lines 62-92). -/
def e1000_init_finish (H : Hdr) (rx_ring_addr : Nat) (s : State) : Outcome Unit :=
  let s := reg_write s H.E1000_RDBAL rx_ring_addr
  if (RX_RING_SIZE * H.sizeof_rx_desc) % 128 ≠ 0 then .panic s else
  let s := reg_write s H.E1000_RDH 0
  let s := reg_write s H.E1000_RDT (RX_RING_SIZE - 1)
  let s := reg_write s H.E1000_RDLEN (RX_RING_SIZE * H.sizeof_rx_desc)
  let s := reg_write s H.E1000_RA 0x12005452
  let s := reg_write s (H.E1000_RA + 1) (0x5634 ||| (1 <<< 31))
  let s := (List.range (4096 / 32)).foldl (fun s i => reg_write s (H.E1000_MTA + i) 0) s
  let s := reg_write s H.E1000_TCTL
    (H.E1000_TCTL_EN ||| H.E1000_TCTL_PSP ||| (0x10 <<< H.E1000_TCTL_CT_SHIFT) |||
      (0x40 <<< H.E1000_TCTL_COLD_SHIFT))
  let s := reg_write s H.E1000_TIPG (10 ||| (8 <<< 10) ||| (6 <<< 20))
  let s := reg_write s H.E1000_RCTL
    (H.E1000_RCTL_EN ||| H.E1000_RCTL_BAM ||| H.E1000_RCTL_SZ_2048 ||| H.E1000_RCTL_SECRC)
  let s := reg_write s H.E1000_RDTR 0
  let s := reg_write s H.E1000_RADV 0
  let s := reg_write s H.E1000_IMS (1 <<< 7)
  .ret () s

/-- The function `e1000_init(xregs)` (lines 27-93). `xregs` is the register file that the
pointer argument maps; `tx_ring_addr` and `rx_ring_addr` are the addresses of the two
static descriptor arrays. -/
def e1000_init (H : Hdr) (xregs : Nat → Nat) (tx_ring_addr rx_ring_addr : Nat)
    (s : State) : Outcome Unit :=
  let s := initlock s
  let s := { s with regs := xregs }
  let s := reg_write s H.E1000_IMS 0
  let s := reg_write s H.E1000_CTL (s.regs H.E1000_CTL ||| H.E1000_CTL_RST)
  let s := reg_write s H.E1000_IMS 0
  let s := memset_tx_ring s
  let s := (List.range TX_RING_SIZE).foldl (e1000_init_tx_slot H) s
  let s := reg_write s H.E1000_TDBAL tx_ring_addr
  if (TX_RING_SIZE * H.sizeof_tx_desc) % 128 ≠ 0 then .panic s else
  let s := reg_write s H.E1000_TDLEN (TX_RING_SIZE * H.sizeof_tx_desc)
  let s := reg_write s H.E1000_TDT 0
  let s := reg_write s H.E1000_TDH 0
  let s := memset_rx_ring s
  match e1000_init_rx (List.range RX_RING_SIZE) s with
  | .ret _ s => e1000_init_finish H rx_ring_addr s
  | .panic s => .panic s
  | .stuck s => .stuck s
  | .fault s => .fault s

/-- The function `e1000_transmit(m)` (lines 95-141). The early `return -1` of line 115
leaves the function directly, after `acquire` and without `release`. -/
def e1000_transmit (H : Hdr) (m : Ptr) (s : State) : Outcome Int :=
  match acquire s with
  | none => .stuck s
  | some s =>
    let tx_ring_index := s.regs H.E1000_TDT
    if ¬ tx_ring_index < TX_RING_SIZE then .fault s else
    if (s.tx_ring tx_ring_index).status ≠ H.E1000_TXD_STAT_DD then .ret (-1) s else
    if m = 0 then .fault s else
    let s := tx_ring_write s tx_ring_index .addr (s.mem m).head
    let s := tx_ring_write s tx_ring_index .length (s.mem m).len
    let s := tx_ring_write s tx_ring_index .cmd
      ((s.tx_ring tx_ring_index).cmd ||| (H.E1000_TXD_CMD_RS ||| H.E1000_TXD_CMD_EOP))
    let s := tx_mbufs_write s tx_ring_index m
    let s := reg_write s H.E1000_TDT ((H.E1000_TDT + 1) % TX_RING_SIZE)
    let s := printf s
    .ret 0 (release s)

/-- The function `e1000_recv()` (lines 143-181). The early `return` of line 164 leaves the
function directly, after `acquire` and without `release`. -/
def e1000_recv (H : Hdr) (s : State) : Outcome Unit :=
  match acquire s with
  | none => .stuck s
  | some s =>
    let rx_ring_index := (H.E1000_RDT + 1) % RX_RING_SIZE
    if (s.rx_ring rx_ring_index).status ≠ H.E1000_RXD_STAT_DD then .ret () s else
    if s.rx_mbufs rx_ring_index = 0 then .fault s else
    let s := mbuf_len_write s (s.rx_mbufs rx_ring_index) (s.rx_ring rx_ring_index).length
    let s := net_rx s (s.rx_mbufs rx_ring_index)
    let s := printf s
    .ret () (release s)

/-- The function `e1000_intr()` (lines 183-192). -/
def e1000_intr (H : Hdr) (s : State) : Outcome Unit :=
  let s := reg_write s H.E1000_ICR 0xffffffff
  e1000_recv H s

/-! ## Runs of calls and the machine used for concrete evaluation -/

/-- Consecutive calls of `e1000_transmit`, one per frame of the list, with no hardware
activity in between: the values the calls return and the state after the last call.
A call that does not return ends the run. -/
def transmit_run (H : Hdr) : List Ptr → State → List Int × State
  | [], s => ([], s)
  | m :: ms, s =>
    match e1000_transmit H m s with
    | .ret v s1 => (v :: (transmit_run H ms s1).1, (transmit_run H ms s1).2)
    | .panic s1 => ([], s1)
    | .stuck s1 => ([], s1)
    | .fault s1 => ([], s1)

/-- Consecutive calls of `e1000_recv`, `n` of them, with no hardware activity in between:
the state after the last call. A call that does not return ends the run. -/
def recv_run (H : Hdr) : Nat → State → State
  | 0, s => s
  | n + 1, s =>
    match e1000_recv H s with
    | .ret _ s1 => recv_run H n s1
    | .panic s1 => s1
    | .stuck s1 => s1
    | .fault s1 => s1

/-- The buffers passed to `net_rx` in a trace, in the order of the calls. -/
def delivered : List Event → List Ptr
  | [] => []
  | .net_rx p _ :: es => p :: delivered es
  | .reg_write _ _ :: es => delivered es
  | .memset_tx_ring :: es => delivered es
  | .memset_rx_ring :: es => delivered es
  | .tx_ring_write _ _ _ :: es => delivered es
  | .tx_mbufs_write _ _ :: es => delivered es
  | .rx_ring_write _ _ _ :: es => delivered es
  | .rx_mbufs_write _ _ :: es => delivered es
  | .mbuf_len_write _ _ :: es => delivered es
  | .mbufalloc _ :: es => delivered es
  | .mbuffree _ :: es => delivered es
  | .printf :: es => delivered es

/-- The hardware receives a frame of `len` bytes into RX slot `i`: it writes the length
and sets the status to the done bit. This is the device's action, not the driver's, and
leaves no entry in the driver's trace. -/
def hw_receive (H : Hdr) (s : State) (i len : Nat) : State :=
  let d : rx_desc := { s.rx_ring i with length := len % 2 ^ 16, status := H.E1000_RXD_STAT_DD }
  { s with rx_ring := upd s.rx_ring i d }

/-- The hardware receives `M` frames into the RX slots `0 .. M-1`, the frame of slot `i`
being `60 + i` bytes long. -/
def hw_receive_first (H : Hdr) (M : Nat) (s : State) : State :=
  (List.range M).foldl (fun s i => hw_receive H s i (60 + i)) s

/-- A machine before `e1000_init`: arrays and registers all zero, the lock not yet set up,
every mbuf at address `p` with its data at `p + 20` and, for the addresses below
`0x87f00000` (the frames handed to `e1000_transmit` below), a length of 60 bytes; the
allocator has the 16 pages from `0x87f01000` on in store. -/
def boot : State where
  tx_ring := fun _ => ⟨0, 0, 0, 0, 0, 0, 0⟩
  tx_mbufs := fun _ => 0
  rx_ring := fun _ => ⟨0, 0, 0, 0, 0, 0⟩
  rx_mbufs := fun _ => 0
  regs := fun _ => 0
  locked := false
  mem := fun p => ⟨p + 20, if p < 0x87f00000 then 60 else 0⟩
  allocs := (List.range 16).map (fun i => 0x87f00000 + 0x1000 * (i + 1))
  trace := []

/-- The state `s` with every TX slot pending: no done bit set in the TX ring. -/
def tx_pending (s : State) : State :=
  { s with tx_ring := fun i => { s.tx_ring i with status := 0 } }

/-- The state that `e1000_init` leaves on the machine `boot`, with the header `e1000_dev`. -/
def after_init : State :=
  (e1000_init e1000_dev (fun _ => 0) 0x80021000 0x80021100 boot).state

/-! ## Notions used to state the claims -/

/-- The actions of a call that is entered in state `s` and left in state `s1`: the part of
the trace that the call added. -/
def new_events (s s1 : State) : List Event :=
  s1.trace.drop s.trace.length

/-- The buffers released to the allocator (`mbuffree`) in a trace, in the order of the
calls. -/
def freed : List Event → List Ptr
  | [] => []
  | .mbuffree p :: es => p :: freed es
  | .reg_write _ _ :: es => freed es
  | .memset_tx_ring :: es => freed es
  | .memset_rx_ring :: es => freed es
  | .tx_ring_write _ _ _ :: es => freed es
  | .tx_mbufs_write _ _ :: es => freed es
  | .rx_ring_write _ _ _ :: es => freed es
  | .rx_mbufs_write _ _ :: es => freed es
  | .mbuf_len_write _ _ :: es => freed es
  | .mbufalloc _ :: es => freed es
  | .net_rx _ _ :: es => freed es
  | .printf :: es => freed es

/-- The registers stored into in a trace, in the order of the stores. -/
def reg_writes : List Event → List Nat
  | [] => []
  | .reg_write r _ :: es => r :: reg_writes es
  | .mbuffree _ :: es => reg_writes es
  | .memset_tx_ring :: es => reg_writes es
  | .memset_rx_ring :: es => reg_writes es
  | .tx_ring_write _ _ _ :: es => reg_writes es
  | .tx_mbufs_write _ _ :: es => reg_writes es
  | .rx_ring_write _ _ _ :: es => reg_writes es
  | .rx_mbufs_write _ _ :: es => reg_writes es
  | .mbuf_len_write _ _ :: es => reg_writes es
  | .mbufalloc _ :: es => reg_writes es
  | .net_rx _ _ :: es => reg_writes es
  | .printf :: es => reg_writes es

/-- The done bit of TX slot `i` is set in state `s`. -/
def tx_done (H : Hdr) (s : State) (i : Nat) : Prop :=
  (s.tx_ring i).status &&& H.E1000_TXD_STAT_DD ≠ 0

/-- The done bit of RX slot `i` is set in state `s`. -/
def rx_done (H : Hdr) (s : State) (i : Nat) : Prop :=
  (s.rx_ring i).status &&& H.E1000_RXD_STAT_DD ≠ 0

/-- The slot protection rule for one action of a call entered in state `s`: a store into a
descriptor or a tracking entry of a slot needs the done bit of that slot set in `s`; a
buffer released to the allocator or stored into needs to be the buffer of a slot whose done
bit is set in `s`; clearing a whole ring needs all its done bits set. The other actions
touch no slot. -/
def slot_rule (H : Hdr) (s : State) : Event → Prop
  | .tx_ring_write i _ _ => tx_done H s i
  | .tx_mbufs_write i _ => tx_done H s i
  | .rx_ring_write i _ _ => rx_done H s i
  | .rx_mbufs_write i _ => rx_done H s i
  | .mbuf_len_write p _ =>
    ∃ i, (i < TX_RING_SIZE ∧ s.tx_mbufs i = p ∧ tx_done H s i) ∨
      (i < RX_RING_SIZE ∧ s.rx_mbufs i = p ∧ rx_done H s i)
  | .mbuffree p =>
    ∃ i, (i < TX_RING_SIZE ∧ s.tx_mbufs i = p ∧ tx_done H s i) ∨
      (i < RX_RING_SIZE ∧ s.rx_mbufs i = p ∧ rx_done H s i)
  | .memset_tx_ring => ∀ i, i < TX_RING_SIZE → tx_done H s i
  | .memset_rx_ring => ∀ i, i < RX_RING_SIZE → rx_done H s i
  | .reg_write _ _ => True
  | .mbufalloc _ => True
  | .net_rx _ _ => True
  | .printf => True

/-- The actions of a trace that follow its first store into register `r`. -/
def after_reg_write (r : Nat) : List Event → List Event
  | [] => []
  | .reg_write r2 _ :: es => if r2 = r then es else after_reg_write r es
  | .mbuffree _ :: es => after_reg_write r es
  | .memset_tx_ring :: es => after_reg_write r es
  | .memset_rx_ring :: es => after_reg_write r es
  | .tx_ring_write _ _ _ :: es => after_reg_write r es
  | .tx_mbufs_write _ _ :: es => after_reg_write r es
  | .rx_ring_write _ _ _ :: es => after_reg_write r es
  | .rx_mbufs_write _ _ :: es => after_reg_write r es
  | .mbuf_len_write _ _ :: es => after_reg_write r es
  | .mbufalloc _ :: es => after_reg_write r es
  | .net_rx _ _ :: es => after_reg_write r es
  | .printf :: es => after_reg_write r es

/-- Whether an action is a store into a field of a TX descriptor or into a `tx_mbufs`
entry. -/
def is_tx_slot_write : Event → Bool
  | .tx_ring_write _ _ _ => true
  | .tx_mbufs_write _ _ => true
  | .reg_write _ _ => false
  | .mbuffree _ => false
  | .memset_tx_ring => false
  | .memset_rx_ring => false
  | .rx_ring_write _ _ _ => false
  | .rx_mbufs_write _ _ => false
  | .mbuf_len_write _ _ => false
  | .mbufalloc _ => false
  | .net_rx _ _ => false
  | .printf => false

/-- Whether the call reached a `panic(...)`. -/
def Outcome.panicked {α : Type} : Outcome α → Bool
  | .ret _ _ => false
  | .panic _ => true
  | .stuck _ => false
  | .fault _ => false

/-- The registers that `e1000.c` names: the 18 single registers, the four head and tail
registers of the rings first, and the 128 words of the multicast table. -/
def Hdr.regs (H : Hdr) : List Nat :=
  [H.E1000_TDT, H.E1000_TDH, H.E1000_RDH, H.E1000_RDT, H.E1000_RDBAL, H.E1000_RDLEN,
    H.E1000_RA, H.E1000_RA + 1, H.E1000_TCTL, H.E1000_TIPG, H.E1000_RCTL, H.E1000_RDTR,
    H.E1000_RADV, H.E1000_IMS, H.E1000_CTL, H.E1000_ICR, H.E1000_TDBAL, H.E1000_TDLEN]
  ++ (List.range (4096 / 32)).map (fun i => H.E1000_MTA + i)

/-- The header gives every register that `e1000.c` names an index of its own. -/
def Hdr.regs_distinct (H : Hdr) : Prop :=
  H.regs.Nodup

/-- The hardware writes the status `st` back into TX slot `i`. This is the device's action
and leaves no entry in the driver's trace. -/
def hw_tx_status (s : State) (i st : Nat) : State :=
  let d : tx_desc := { s.tx_ring i with status := st % 2 ^ 8 }
  { s with tx_ring := upd s.tx_ring i d }

/-- The hardware writes the length `len` and the status `st` back into RX slot `i`. This is
the device's action and leaves no entry in the driver's trace. -/
def hw_rx_status (s : State) (i len st : Nat) : State :=
  let d : rx_desc := { s.rx_ring i with length := len % 2 ^ 16, status := st % 2 ^ 8 }
  { s with rx_ring := upd s.rx_ring i d }

/-- The machine `boot` with an allocator that has only five buffers in store. -/
def boot_short : State :=
  { boot with allocs := boot.allocs.take 5 }

/-! ## The paths through `e1000_transmit` and `e1000_recv` -/

set_option maxRecDepth 1000000

/-- The idle path of `e1000_recv`: the call returns and only the lock differs. -/
theorem e1000_recv_idle_eq (H : Hdr) (s : State)
    (hlock : s.locked = false)
    (hst : (s.rx_ring ((H.E1000_RDT + 1) % RX_RING_SIZE)).status ≠ H.E1000_RXD_STAT_DD) :
    e1000_recv H s = .ret () { s with locked := true } := by
  simp [e1000_recv, acquire, hlock, hst]

/-- The buffers delivered in a trace made of two parts. -/
theorem delivered_append (l l2 : List Event) :
    delivered (l ++ l2) = delivered l ++ delivered l2 := by
  induction l with
  | nil => simp [delivered]
  | cons a l ih => cases a <;> simp [delivered, ih]

/-- The success path of `e1000_transmit`, for every header and every state: the call
returns 0, the tail register becomes the constant `(E1000_TDT + 1) % 16` whatever it held,
and no store goes to the status of the slot. -/
theorem e1000_transmit_ok_eq (H : Hdr) (s : State) (m : Ptr)
    (hlock : s.locked = false)
    (htail : s.regs H.E1000_TDT < TX_RING_SIZE)
    (hst : (s.tx_ring (s.regs H.E1000_TDT)).status = H.E1000_TXD_STAT_DD)
    (hm : m ≠ 0) :
    (e1000_transmit H m s).returned = some 0 ∧
    (e1000_transmit H m s).state.locked = false ∧
    (e1000_transmit H m s).state.regs H.E1000_TDT = (H.E1000_TDT + 1) % TX_RING_SIZE ∧
    (e1000_transmit H m s).state.tx_mbufs (s.regs H.E1000_TDT) = m ∧
    ((e1000_transmit H m s).state.tx_ring (s.regs H.E1000_TDT)).status
      = H.E1000_TXD_STAT_DD := by
  have h16 : (H.E1000_TDT + 1) % 16 % 4294967296 = (H.E1000_TDT + 1) % 16 :=
    Nat.mod_eq_of_lt (by omega)
  have htail16 : ¬ 16 ≤ s.regs H.E1000_TDT := by
    unfold TX_RING_SIZE at htail
    omega
  simp [e1000_transmit, acquire, hlock, htail16, hst, hm, Outcome.returned, Outcome.state,
    release, printf, State.log, reg_write, tx_mbufs_write, tx_ring_write, upd, tx_desc.set,
    Field.fit,
    TX_RING_SIZE, h16]

/-- The delivery path of `e1000_recv`, for every header and every state: the call passes
the buffer of slot `(E1000_RDT + 1) % 16` to `net_rx` and returns with the slot's buffer,
the slot's status and all registers as they were. -/
theorem e1000_recv_ready_eq (H : Hdr) (s : State)
    (hlock : s.locked = false)
    (hst : (s.rx_ring ((H.E1000_RDT + 1) % RX_RING_SIZE)).status = H.E1000_RXD_STAT_DD)
    (hp : s.rx_mbufs ((H.E1000_RDT + 1) % RX_RING_SIZE) ≠ 0) :
    (e1000_recv H s).returned = some () ∧
    (e1000_recv H s).state.locked = false ∧
    (e1000_recv H s).state.rx_mbufs = s.rx_mbufs ∧
    (e1000_recv H s).state.rx_ring = s.rx_ring ∧
    (e1000_recv H s).state.regs = s.regs ∧
    delivered (e1000_recv H s).state.trace
      = delivered s.trace ++ [s.rx_mbufs ((H.E1000_RDT + 1) % RX_RING_SIZE)] := by
  simp [e1000_recv, acquire, hlock, hst, hp, Outcome.returned, Outcome.state,
    release, printf, State.log, net_rx, mbuf_len_write, delivered_append, delivered]

/-- On the machine `boot` every allocation succeeds and `e1000_init` returns: `after_init`
is the state of a completed call, with the lock free, both tail registers as lines 52 and
66 set them, every TX slot done and slot 7 of the RX ring posted with its own buffer. -/
theorem e1000_init_boot_returns :
    (e1000_init e1000_dev (fun _ => 0) 0x80021000 0x80021100 boot).returned = some () ∧
    after_init.locked = false ∧
    after_init.regs e1000_dev.E1000_TDT = 0 ∧
    after_init.regs e1000_dev.E1000_RDT = 15 ∧
    (List.range 16).map (fun i => (after_init.tx_ring i).status) = List.replicate 16 1 ∧
    (List.range 16).map (fun i => (after_init.rx_ring i).status) = List.replicate 16 0 ∧
    after_init.rx_mbufs 7 = 0x87f08000 := by
  decide

/-! ## The actions of the calls, and `e1000_init` step by step -/

/-- Reading the slot just stored into. -/
theorem upd_same {α : Type} (a : Nat → α) (i : Nat) (v : α) : upd a i v i = v := by
  simp [upd]

/-- Reading another slot than the one stored into. -/
theorem upd_other {α : Type} (a : Nat → α) (i j : Nat) (v : α) (h : j ≠ i) :
    upd a i v j = a j := by
  simp [upd, h]

/-- A second store into a slot replaces the first. -/
theorem upd_upd {α : Type} (a : Nat → α) (i : Nat) (v w : α) :
    upd (upd a i v) i w = upd a i w := by
  funext j
  by_cases h : j = i <;> simp [upd, h]

/-- The added part of a trace that has grown by `ev`. -/
theorem new_events_of_append (s s1 : State) (ev : List Event)
    (h : s1.trace = s.trace ++ ev) : new_events s s1 = ev := by
  simp [new_events, h]

/-- The buffers freed in a trace made of two parts. -/
theorem freed_append (l l2 : List Event) : freed (l ++ l2) = freed l ++ freed l2 := by
  induction l with
  | nil => simp [freed]
  | cons a l ih => cases a <;> simp [freed, ih]

/-- The registers stored into in a trace made of two parts. -/
theorem reg_writes_append (l l2 : List Event) :
    reg_writes (l ++ l2) = reg_writes l ++ reg_writes l2 := by
  induction l with
  | nil => simp [reg_writes]
  | cons a l ih => cases a <;> simp [reg_writes, ih]

/-- The five ways through `e1000_transmit`, with the state each one leaves. -/
theorem e1000_transmit_cases (H : Hdr) (m : Ptr) (s : State) :
    (s.locked = true ∧ e1000_transmit H m s = .stuck s) ∨
    (s.locked = false ∧ ¬ s.regs H.E1000_TDT < TX_RING_SIZE ∧
      e1000_transmit H m s = .fault { s with locked := true }) ∨
    (s.locked = false ∧ s.regs H.E1000_TDT < TX_RING_SIZE ∧
      (s.tx_ring (s.regs H.E1000_TDT)).status ≠ H.E1000_TXD_STAT_DD ∧
      e1000_transmit H m s = .ret (-1) { s with locked := true }) ∨
    (s.locked = false ∧ s.regs H.E1000_TDT < TX_RING_SIZE ∧
      (s.tx_ring (s.regs H.E1000_TDT)).status = H.E1000_TXD_STAT_DD ∧ m = 0 ∧
      e1000_transmit H m s = .fault { s with locked := true }) ∨
    (s.locked = false ∧ s.regs H.E1000_TDT < TX_RING_SIZE ∧
      (s.tx_ring (s.regs H.E1000_TDT)).status = H.E1000_TXD_STAT_DD ∧ m ≠ 0 ∧
      e1000_transmit H m s = .ret 0
        { s with
          tx_ring := upd s.tx_ring (s.regs H.E1000_TDT)
            { s.tx_ring (s.regs H.E1000_TDT) with
              addr := (s.mem m).head
              length := (s.mem m).len % 2 ^ 16
              cmd := ((s.tx_ring (s.regs H.E1000_TDT)).cmd |||
                (H.E1000_TXD_CMD_RS ||| H.E1000_TXD_CMD_EOP)) % 2 ^ 8 }
          tx_mbufs := upd s.tx_mbufs (s.regs H.E1000_TDT) m
          regs := upd s.regs H.E1000_TDT ((H.E1000_TDT + 1) % TX_RING_SIZE)
          locked := false
          trace := s.trace ++
            [.tx_ring_write (s.regs H.E1000_TDT) .addr (s.mem m).head,
             .tx_ring_write (s.regs H.E1000_TDT) .length ((s.mem m).len % 2 ^ 16),
             .tx_ring_write (s.regs H.E1000_TDT) .cmd
               (((s.tx_ring (s.regs H.E1000_TDT)).cmd |||
                 (H.E1000_TXD_CMD_RS ||| H.E1000_TXD_CMD_EOP)) % 2 ^ 8),
             .tx_mbufs_write (s.regs H.E1000_TDT) m,
             .reg_write H.E1000_TDT ((H.E1000_TDT + 1) % TX_RING_SIZE),
             .printf] }) := by
  by_cases hl : s.locked = true
  · left
    simp [e1000_transmit, acquire, hl]
  · right
    have hl2 : s.locked = false := by simpa using hl
    by_cases ht : s.regs H.E1000_TDT < TX_RING_SIZE
    · right
      by_cases hst : (s.tx_ring (s.regs H.E1000_TDT)).status = H.E1000_TXD_STAT_DD
      · right
        by_cases hm : m = 0
        · left
          simp [e1000_transmit, acquire, hl2, ht, hst, hm]
        · right
          have h16 : (H.E1000_TDT + 1) % 16 % 4294967296 = (H.E1000_TDT + 1) % 16 :=
            Nat.mod_eq_of_lt (by omega)
          have ht16 : ¬ 16 ≤ s.regs H.E1000_TDT := by
            unfold TX_RING_SIZE at ht
            omega
          refine ⟨hl2, ht, hst, hm, ?_⟩
          simp [e1000_transmit, acquire, hl2, ht16, hst, hm, release, printf, State.log,
            reg_write, tx_mbufs_write, tx_ring_write, tx_desc.set, Field.fit, TX_RING_SIZE,
            h16, upd_same, upd_upd]
      · left
        exact ⟨hl2, ht, hst, by simp [e1000_transmit, acquire, hl2, ht, hst]⟩
    · left
      exact ⟨hl2, ht, by simp [e1000_transmit, acquire, hl2, ht]⟩

/-- The four ways through `e1000_recv`, with the state each one leaves. -/
theorem e1000_recv_cases (H : Hdr) (s : State) :
    (s.locked = true ∧ e1000_recv H s = .stuck s) ∨
    (s.locked = false ∧
      (s.rx_ring ((H.E1000_RDT + 1) % RX_RING_SIZE)).status ≠ H.E1000_RXD_STAT_DD ∧
      e1000_recv H s = .ret () { s with locked := true }) ∨
    (s.locked = false ∧
      (s.rx_ring ((H.E1000_RDT + 1) % RX_RING_SIZE)).status = H.E1000_RXD_STAT_DD ∧
      s.rx_mbufs ((H.E1000_RDT + 1) % RX_RING_SIZE) = 0 ∧
      e1000_recv H s = .fault { s with locked := true }) ∨
    (s.locked = false ∧
      (s.rx_ring ((H.E1000_RDT + 1) % RX_RING_SIZE)).status = H.E1000_RXD_STAT_DD ∧
      s.rx_mbufs ((H.E1000_RDT + 1) % RX_RING_SIZE) ≠ 0 ∧
      e1000_recv H s = .ret ()
        { s with
          mem := upd s.mem (s.rx_mbufs ((H.E1000_RDT + 1) % RX_RING_SIZE))
            { s.mem (s.rx_mbufs ((H.E1000_RDT + 1) % RX_RING_SIZE)) with
              len := (s.rx_ring ((H.E1000_RDT + 1) % RX_RING_SIZE)).length % 2 ^ 32 }
          locked := false
          trace := s.trace ++
            [.mbuf_len_write (s.rx_mbufs ((H.E1000_RDT + 1) % RX_RING_SIZE))
               ((s.rx_ring ((H.E1000_RDT + 1) % RX_RING_SIZE)).length % 2 ^ 32),
             .net_rx (s.rx_mbufs ((H.E1000_RDT + 1) % RX_RING_SIZE))
               { s.mem (s.rx_mbufs ((H.E1000_RDT + 1) % RX_RING_SIZE)) with
                 len := (s.rx_ring ((H.E1000_RDT + 1) % RX_RING_SIZE)).length % 2 ^ 32 },
             .printf] }) := by
  by_cases hl : s.locked = true
  · left
    simp [e1000_recv, acquire, hl]
  · right
    have hl2 : s.locked = false := by simpa using hl
    by_cases hst : (s.rx_ring ((H.E1000_RDT + 1) % RX_RING_SIZE)).status
        = H.E1000_RXD_STAT_DD
    · right
      by_cases hp : s.rx_mbufs ((H.E1000_RDT + 1) % RX_RING_SIZE) = 0
      · left
        exact ⟨hl2, hst, hp, by simp [e1000_recv, acquire, hl2, hst, hp]⟩
      · right
        refine ⟨hl2, hst, hp, ?_⟩
        simp [e1000_recv, acquire, hl2, hst, hp, release, printf, State.log, net_rx,
          mbuf_len_write, upd_same]
    · left
      exact ⟨hl2, hst, by simp [e1000_recv, acquire, hl2, hst]⟩

/-- A status equal to a done-bit mask that is not zero has the done bit set. -/
theorem done_of_status_eq (st dd : Nat) (hdd : dd ≠ 0) (h : st = dd) : st &&& dd ≠ 0 := by
  subst h
  rw [Nat.and_self]
  exact hdd

/-- The call `e1000_transmit` releases no buffer, whatever the state: the source has no
call of `mbuffree`. -/
theorem e1000_transmit_frees_nothing (H : Hdr) (m : Ptr) (s : State) :
    freed (e1000_transmit H m s).state.trace = freed s.trace := by
  rcases e1000_transmit_cases H m s with h | h | h | h | h
  · simp [h.2, Outcome.state]
  · simp [h.2.2, Outcome.state]
  · simp [h.2.2.2, Outcome.state]
  · simp [h.2.2.2.2, Outcome.state]
  · simp [h.2.2.2.2, Outcome.state, freed_append, freed]

/-- The call `e1000_recv` releases no buffer, whatever the state. -/
theorem e1000_recv_frees_nothing (H : Hdr) (s : State) :
    freed (e1000_recv H s).state.trace = freed s.trace := by
  rcases e1000_recv_cases H s with h | h | h | h
  · simp [h.2, Outcome.state]
  · simp [h.2.2, Outcome.state]
  · simp [h.2.2.2, Outcome.state]
  · simp [h.2.2.2, Outcome.state, freed_append, freed]

/-- The transmit loop of `e1000_init` over the slots `l`: it sets the status of each slot
of `l` to the done bit and its tracking entry to null, and touches nothing else but the
trace, where it leaves no register store. -/
theorem e1000_init_tx_loop_spec (H : Hdr) (l : List Nat) : ∀ s : State,
    (l.foldl (e1000_init_tx_slot H) s).regs = s.regs ∧
    (l.foldl (e1000_init_tx_slot H) s).rx_ring = s.rx_ring ∧
    (l.foldl (e1000_init_tx_slot H) s).rx_mbufs = s.rx_mbufs ∧
    (l.foldl (e1000_init_tx_slot H) s).mem = s.mem ∧
    (l.foldl (e1000_init_tx_slot H) s).allocs = s.allocs ∧
    (l.foldl (e1000_init_tx_slot H) s).locked = s.locked ∧
    (∃ ev, (l.foldl (e1000_init_tx_slot H) s).trace = s.trace ++ ev ∧ reg_writes ev = []) ∧
    (∀ i, i ∈ l → ((l.foldl (e1000_init_tx_slot H) s).tx_ring i).status
        = H.E1000_TXD_STAT_DD % 2 ^ 8 ∧
      (l.foldl (e1000_init_tx_slot H) s).tx_mbufs i = 0) ∧
    (∀ i, i ∉ l → (l.foldl (e1000_init_tx_slot H) s).tx_ring i = s.tx_ring i ∧
      (l.foldl (e1000_init_tx_slot H) s).tx_mbufs i = s.tx_mbufs i) := by
  induction l with
  | nil =>
    intro s
    simp [reg_writes]
  | cons a l ih =>
    intro s
    have h := ih (e1000_init_tx_slot H s a)
    obtain ⟨h1, h2, h3, h4, h5, h6, ⟨ev, h7, h8⟩, h9, h10⟩ := h
    simp only [List.foldl_cons]
    refine ⟨h1, h2, h3, h4, h5, h6, ?_, ?_, ?_⟩
    · refine ⟨[.tx_ring_write a .status (Field.fit .status H.E1000_TXD_STAT_DD),
        .tx_mbufs_write a 0] ++ ev, ?_, ?_⟩
      · rw [h7]
        simp [e1000_init_tx_slot, tx_mbufs_write, tx_ring_write]
      · simp [reg_writes_append, reg_writes, h8]
    · intro i hi
      by_cases hil : i ∈ l
      · exact h9 i hil
      · have hia : i = a := by
          rcases List.mem_cons.1 hi with h | h
          · exact h
          · exact absurd h hil
        subst hia
        rw [(h10 i hil).1, (h10 i hil).2]
        simp [e1000_init_tx_slot, tx_mbufs_write, tx_ring_write, upd_same, tx_desc.set,
          Field.fit]
    · intro i hi
      have hia : i ≠ a := fun e => hi (e ▸ List.mem_cons_self _ _)
      have hil : i ∉ l := fun e => hi (List.mem_cons_of_mem _ e)
      rw [(h10 i hil).1, (h10 i hil).2]
      simp [e1000_init_tx_slot, tx_mbufs_write, tx_ring_write, upd, hia]

/-- The multicast-table loop of `e1000_init` over the words `l`: it stores 0 into the
registers `M + i` and leaves the other registers and the rest of the state as they
were. -/
theorem e1000_init_mta_loop_spec (M : Nat) (l : List Nat) : ∀ s : State,
    (l.foldl (fun s i => reg_write s (M + i) 0) s).tx_ring = s.tx_ring ∧
    (l.foldl (fun s i => reg_write s (M + i) 0) s).tx_mbufs = s.tx_mbufs ∧
    (l.foldl (fun s i => reg_write s (M + i) 0) s).rx_ring = s.rx_ring ∧
    (l.foldl (fun s i => reg_write s (M + i) 0) s).rx_mbufs = s.rx_mbufs ∧
    (l.foldl (fun s i => reg_write s (M + i) 0) s).mem = s.mem ∧
    (l.foldl (fun s i => reg_write s (M + i) 0) s).allocs = s.allocs ∧
    (l.foldl (fun s i => reg_write s (M + i) 0) s).locked = s.locked ∧
    (∀ r, (∀ i, i ∈ l → ¬ M + i = r) →
      (l.foldl (fun s i => reg_write s (M + i) 0) s).regs r = s.regs r) := by
  induction l with
  | nil =>
    intro s
    simp
  | cons a l ih =>
    intro s
    obtain ⟨h1, h2, h3, h4, h5, h6, h7, h8⟩ := ih (reg_write s (M + a) 0)
    simp only [List.foldl_cons]
    refine ⟨h1, h2, h3, h4, h5, h6, h7, ?_⟩
    intro r hr
    rw [h8 r (fun i hi => hr i (List.mem_cons_of_mem _ hi))]
    have hne : r ≠ M + a := fun e => hr a (List.mem_cons_self _ _) e.symm
    simp [reg_write, upd, hne]

/-- The receive loop of `e1000_init` over the slots `l`, when the allocator has a buffer
for each of them: the loop returns, slot number `k` of `l` tracks the `k`-th buffer of
the allocator and has its head as address, with the status untouched; the slots outside `l` and
the rest of the state are as they were. -/
theorem e1000_init_rx_ok (l : List Nat) : ∀ s : State, l.Nodup →
    (∀ k, k < l.length → s.allocs.getD k 0 ≠ 0) →
    ∃ s1, e1000_init_rx l s = .ret () s1 ∧
      s1.regs = s.regs ∧ s1.tx_ring = s.tx_ring ∧ s1.tx_mbufs = s.tx_mbufs ∧
      s1.mem = s.mem ∧ s1.locked = s.locked ∧
      (∃ ev, s1.trace = s.trace ++ ev ∧ reg_writes ev = []) ∧
      (∀ k, k < l.length →
        s1.rx_mbufs (l.getD k 0) = s.allocs.getD k 0 ∧
        (s1.rx_ring (l.getD k 0)).addr = (s.mem (s.allocs.getD k 0)).head ∧
        (s1.rx_ring (l.getD k 0)).status = (s.rx_ring (l.getD k 0)).status) ∧
      (∀ i, i ∉ l → s1.rx_mbufs i = s.rx_mbufs i ∧ s1.rx_ring i = s.rx_ring i) := by
  induction l with
  | nil =>
    intro s _ _
    exact ⟨s, by simp [e1000_init_rx, reg_writes]⟩
  | cons a l ih =>
    intro s hnd hall
    obtain ⟨hal, hnd2⟩ := List.nodup_cons.1 hnd
    cases hA : s.allocs with
    | nil =>
      have := hall 0 (by simp)
      simp [hA] at this
    | cons p ps =>
      have hp : p ≠ 0 := by
        have := hall 0 (by simp)
        simpa [hA] using this
      have hstep : e1000_init_rx (a :: l) s = e1000_init_rx l
          (rx_ring_write (rx_mbufs_write
            { s with allocs := ps, trace := s.trace ++ [.mbufalloc p] } a p) a .addr
            (s.mem p).head) := by
        simp [e1000_init_rx, mbufalloc, hA, hp, rx_mbufs_write]
      have hall2 : ∀ k, k < l.length →
          (rx_ring_write (rx_mbufs_write
            { s with allocs := ps, trace := s.trace ++ [.mbufalloc p] } a p) a .addr
            (s.mem p).head).allocs.getD k 0 ≠ 0 := by
        intro k hk
        have := hall (k + 1) (by simpa using hk)
        simpa [hA, rx_ring_write, rx_mbufs_write] using this
      obtain ⟨s1, h0, h1, h2, h3, h4, h5, ⟨ev, h6, h7⟩, h8, h9⟩ := ih _ hnd2 hall2
      refine ⟨s1, by rw [hstep, h0], ?_, ?_, ?_, ?_, ?_, ?_, ?_, ?_⟩
      · rw [h1]; rfl
      · rw [h2]; rfl
      · rw [h3]; rfl
      · rw [h4]; rfl
      · rw [h5]; rfl
      · refine ⟨[.mbufalloc p, .rx_mbufs_write a p,
          .rx_ring_write a .addr (s.mem p).head] ++ ev, ?_, ?_⟩
        · rw [h6]
          simp [rx_ring_write, rx_mbufs_write, Field.fit]
        · simp [reg_writes_append, reg_writes, h7]
      · intro k hk
        cases k with
        | zero =>
          simp only [List.getD_cons_zero]
          rw [(h9 a hal).1, (h9 a hal).2]
          simp [rx_ring_write, rx_mbufs_write, upd_same, rx_desc.set, Field.fit]
        | succ k =>
          have hk2 : k < l.length := by simpa using hk
          have hmem : l.getD k 0 ∈ l := by
            rw [List.getD_eq_getElem _ _ hk2]
            exact List.getElem_mem _
          have hne : l.getD k 0 ≠ a := fun e => hal (e ▸ hmem)
          simp only [List.getD_cons_succ]
          obtain ⟨e1, e2, e3⟩ := h8 k hk2
          rw [e1, e2, e3]
          generalize l.getD k 0 = j at hne
          simp [rx_ring_write, rx_mbufs_write, upd, hne]
      · intro i hi
        have hia : i ≠ a := fun e => hi (e ▸ List.mem_cons_self _ _)
        have hil : i ∉ l := fun e => hi (List.mem_cons_of_mem _ e)
        rw [(h9 i hil).1, (h9 i hil).2]
        simp [rx_ring_write, rx_mbufs_write, upd, hia]

/-- The receive loop of `e1000_init` over the slots `l`, when one of the allocations
fails: the loop panics, having stored into no register. -/
theorem e1000_init_rx_fail (l : List Nat) : ∀ s : State,
    (∃ k, k < l.length ∧ s.allocs.getD k 0 = 0) →
    ∃ s1, e1000_init_rx l s = .panic s1 ∧ s1.regs = s.regs ∧
      ∃ ev, s1.trace = s.trace ++ ev ∧ reg_writes ev = [] := by
  induction l with
  | nil =>
    intro s h
    obtain ⟨k, hk, _⟩ := h
    simp at hk
  | cons a l ih =>
    intro s h
    obtain ⟨k, hk, hz⟩ := h
    cases hA : s.allocs with
    | nil =>
      refine ⟨_, by simp [e1000_init_rx, mbufalloc, hA]; rfl, ?_, ?_⟩
      · simp [rx_mbufs_write, State.log]
      · exact ⟨[.mbufalloc 0, .rx_mbufs_write a 0], by simp [rx_mbufs_write, State.log],
          by simp [reg_writes]⟩
    | cons p ps =>
      by_cases hp : p = 0
      · refine ⟨_, by simp [e1000_init_rx, mbufalloc, hA, hp]; rfl, ?_, ?_⟩
        · simp [rx_mbufs_write]
        · exact ⟨[.mbufalloc 0, .rx_mbufs_write a 0], by simp [rx_mbufs_write],
            by simp [reg_writes]⟩
      · have hstep : e1000_init_rx (a :: l) s = e1000_init_rx l
            (rx_ring_write (rx_mbufs_write
              { s with allocs := ps, trace := s.trace ++ [.mbufalloc p] } a p) a .addr
              (s.mem p).head) := by
          simp [e1000_init_rx, mbufalloc, hA, hp, rx_mbufs_write]
        have hk0 : k ≠ 0 := by
          intro e
          subst e
          simp [hA] at hz
          exact hp hz
        obtain ⟨k2, rfl⟩ := Nat.exists_eq_succ_of_ne_zero hk0
        have hex : ∃ j, j < l.length ∧ (rx_ring_write (rx_mbufs_write
              { s with allocs := ps, trace := s.trace ++ [.mbufalloc p] } a p) a .addr
              (s.mem p).head).allocs.getD j 0 = 0 := by
          refine ⟨k2, by simpa using hk, ?_⟩
          simpa [hA, rx_ring_write, rx_mbufs_write] using hz
        obtain ⟨s1, h0, h1, ev, h2, h3⟩ := ih _ hex
        refine ⟨s1, by rw [hstep, h0], by rw [h1]; rfl, ?_⟩
        refine ⟨[.mbufalloc p, .rx_mbufs_write a p,
          .rx_ring_write a .addr (s.mem p).head] ++ ev, ?_, ?_⟩
        · rw [h2]
          simp [rx_ring_write, rx_mbufs_write, Field.fit]
        · simp [reg_writes_append, reg_writes, h3]

/-- A register store leaves the TX ring as it is. -/
theorem reg_write_tx_ring (s : State) (r v : Nat) : (reg_write s r v).tx_ring = s.tx_ring :=
  rfl

/-- A register store leaves the TX tracking array as it is. -/
theorem reg_write_tx_mbufs (s : State) (r v : Nat) :
    (reg_write s r v).tx_mbufs = s.tx_mbufs :=
  rfl

/-- A register store leaves the RX ring as it is. -/
theorem reg_write_rx_ring (s : State) (r v : Nat) : (reg_write s r v).rx_ring = s.rx_ring :=
  rfl

/-- A register store leaves the RX tracking array as it is. -/
theorem reg_write_rx_mbufs (s : State) (r v : Nat) :
    (reg_write s r v).rx_mbufs = s.rx_mbufs :=
  rfl

/-- A register store leaves the mbuf heap as it is. -/
theorem reg_write_mem (s : State) (r v : Nat) : (reg_write s r v).mem = s.mem :=
  rfl

/-- A register store leaves the allocator as it is. -/
theorem reg_write_allocs (s : State) (r v : Nat) : (reg_write s r v).allocs = s.allocs :=
  rfl

/-- A register store leaves the lock as it is. -/
theorem reg_write_locked (s : State) (r v : Nat) : (reg_write s r v).locked = s.locked :=
  rfl

/-- The registers after a register store. -/
theorem reg_write_regs (s : State) (r v : Nat) :
    (reg_write s r v).regs = upd s.regs r (v % 2 ^ 32) :=
  rfl

/-- The trace after a register store. -/
theorem reg_write_trace (s : State) (r v : Nat) :
    (reg_write s r v).trace = s.trace ++ [.reg_write r (v % 2 ^ 32)] :=
  rfl

/-- The end of `e1000_init` when the size check of line 63 fails: a panic right after the
store into `regs[E1000_RDBAL]`. -/
theorem e1000_init_finish_panic (H : Hdr) (ra : Nat) (s : State)
    (hsz : (RX_RING_SIZE * H.sizeof_rx_desc) % 128 ≠ 0) :
    e1000_init_finish H ra s = .panic (reg_write s H.E1000_RDBAL ra) := by
  simp [e1000_init_finish, hsz]

/-- The end of `e1000_init` when the size check of line 63 passes, as one chain of
register stores around the multicast-table loop. -/
theorem e1000_init_finish_eq (H : Hdr) (ra : Nat) (s : State)
    (hsz : (RX_RING_SIZE * H.sizeof_rx_desc) % 128 = 0) :
    e1000_init_finish H ra s = .ret ()
      (reg_write (reg_write (reg_write (reg_write (reg_write (reg_write
        (List.foldl (fun s i => reg_write s (H.E1000_MTA + i) 0)
          (reg_write (reg_write (reg_write (reg_write (reg_write (reg_write s
            H.E1000_RDBAL ra) H.E1000_RDH 0) H.E1000_RDT (RX_RING_SIZE - 1))
            H.E1000_RDLEN (RX_RING_SIZE * H.sizeof_rx_desc)) H.E1000_RA 0x12005452)
            (H.E1000_RA + 1) (0x5634 ||| (1 <<< 31)))
          (List.range (4096 / 32)))
        H.E1000_TCTL (H.E1000_TCTL_EN ||| H.E1000_TCTL_PSP |||
          (0x10 <<< H.E1000_TCTL_CT_SHIFT) ||| (0x40 <<< H.E1000_TCTL_COLD_SHIFT)))
        H.E1000_TIPG (10 ||| (8 <<< 10) ||| (6 <<< 20)))
        H.E1000_RCTL (H.E1000_RCTL_EN ||| H.E1000_RCTL_BAM ||| H.E1000_RCTL_SZ_2048 |||
          H.E1000_RCTL_SECRC))
        H.E1000_RDTR 0) H.E1000_RADV 0) H.E1000_IMS (1 <<< 7)) := by
  unfold e1000_init_finish
  rw [if_neg (by simp [hsz])]


/-- The register stores of `e1000_init` after the multicast-table loop (lines 77-92), from
any state `X`: they leave rings, tracking arrays, buffers, allocator and lock as in `X`,
and every register that is none of the six stored into. -/
theorem e1000_init_tail_stores (H : Hdr) (X : State) (v1 v2 v3 v4 v5 v6 : Nat) :
    (reg_write (reg_write (reg_write (reg_write (reg_write (reg_write X
      H.E1000_TCTL v1) H.E1000_TIPG v2) H.E1000_RCTL v3) H.E1000_RDTR v4) H.E1000_RADV v5)
      H.E1000_IMS v6).tx_ring = X.tx_ring ∧
    (reg_write (reg_write (reg_write (reg_write (reg_write (reg_write X
      H.E1000_TCTL v1) H.E1000_TIPG v2) H.E1000_RCTL v3) H.E1000_RDTR v4) H.E1000_RADV v5)
      H.E1000_IMS v6).tx_mbufs = X.tx_mbufs ∧
    (reg_write (reg_write (reg_write (reg_write (reg_write (reg_write X
      H.E1000_TCTL v1) H.E1000_TIPG v2) H.E1000_RCTL v3) H.E1000_RDTR v4) H.E1000_RADV v5)
      H.E1000_IMS v6).rx_ring = X.rx_ring ∧
    (reg_write (reg_write (reg_write (reg_write (reg_write (reg_write X
      H.E1000_TCTL v1) H.E1000_TIPG v2) H.E1000_RCTL v3) H.E1000_RDTR v4) H.E1000_RADV v5)
      H.E1000_IMS v6).rx_mbufs = X.rx_mbufs ∧
    (reg_write (reg_write (reg_write (reg_write (reg_write (reg_write X
      H.E1000_TCTL v1) H.E1000_TIPG v2) H.E1000_RCTL v3) H.E1000_RDTR v4) H.E1000_RADV v5)
      H.E1000_IMS v6).mem = X.mem ∧
    (reg_write (reg_write (reg_write (reg_write (reg_write (reg_write X
      H.E1000_TCTL v1) H.E1000_TIPG v2) H.E1000_RCTL v3) H.E1000_RDTR v4) H.E1000_RADV v5)
      H.E1000_IMS v6).allocs = X.allocs ∧
    (reg_write (reg_write (reg_write (reg_write (reg_write (reg_write X
      H.E1000_TCTL v1) H.E1000_TIPG v2) H.E1000_RCTL v3) H.E1000_RDTR v4) H.E1000_RADV v5)
      H.E1000_IMS v6).locked = X.locked ∧
    (∀ r, r ∉ [H.E1000_TCTL, H.E1000_TIPG, H.E1000_RCTL, H.E1000_RDTR, H.E1000_RADV,
        H.E1000_IMS] →
      (reg_write (reg_write (reg_write (reg_write (reg_write (reg_write X
        H.E1000_TCTL v1) H.E1000_TIPG v2) H.E1000_RCTL v3) H.E1000_RDTR v4) H.E1000_RADV v5)
        H.E1000_IMS v6).regs r = X.regs r) := by
  refine ⟨by simp only [reg_write_tx_ring], by simp only [reg_write_tx_mbufs],
    by simp only [reg_write_rx_ring], by simp only [reg_write_rx_mbufs],
    by simp only [reg_write_mem], by simp only [reg_write_allocs],
    by simp only [reg_write_locked], ?_⟩
  intro r hr
  simp only [List.mem_cons, List.mem_singleton, List.not_mem_nil, not_or, or_false] at hr
  obtain ⟨r1, r2, r3, r4, r5, r6⟩ := hr
  simp only [reg_write_regs]
  rw [upd_other _ _ _ _ r6, upd_other _ _ _ _ r5, upd_other _ _ _ _ r4, upd_other _ _ _ _ r3,
    upd_other _ _ _ _ r2, upd_other _ _ _ _ r1]

/-- The register stores of `e1000_init` before the multicast-table loop (lines 62-71), from
any state `s`: they leave rings, tracking arrays, buffers, allocator and lock as in `s`;
a register that is none of `RDBAL`, `RDLEN`, `RA`, `RA + 1` holds what the stores of 0
into `RDH` and of 15 into `RDT` leave in it. -/
theorem e1000_init_head_stores (H : Hdr) (s : State) (ra v4 v5 v6 : Nat) :
    (reg_write (reg_write (reg_write (reg_write (reg_write (reg_write s
      H.E1000_RDBAL ra) H.E1000_RDH 0) H.E1000_RDT (RX_RING_SIZE - 1))
      H.E1000_RDLEN v4) H.E1000_RA v5) (H.E1000_RA + 1) v6).tx_ring = s.tx_ring ∧
    (reg_write (reg_write (reg_write (reg_write (reg_write (reg_write s
      H.E1000_RDBAL ra) H.E1000_RDH 0) H.E1000_RDT (RX_RING_SIZE - 1))
      H.E1000_RDLEN v4) H.E1000_RA v5) (H.E1000_RA + 1) v6).tx_mbufs = s.tx_mbufs ∧
    (reg_write (reg_write (reg_write (reg_write (reg_write (reg_write s
      H.E1000_RDBAL ra) H.E1000_RDH 0) H.E1000_RDT (RX_RING_SIZE - 1))
      H.E1000_RDLEN v4) H.E1000_RA v5) (H.E1000_RA + 1) v6).rx_ring = s.rx_ring ∧
    (reg_write (reg_write (reg_write (reg_write (reg_write (reg_write s
      H.E1000_RDBAL ra) H.E1000_RDH 0) H.E1000_RDT (RX_RING_SIZE - 1))
      H.E1000_RDLEN v4) H.E1000_RA v5) (H.E1000_RA + 1) v6).rx_mbufs = s.rx_mbufs ∧
    (reg_write (reg_write (reg_write (reg_write (reg_write (reg_write s
      H.E1000_RDBAL ra) H.E1000_RDH 0) H.E1000_RDT (RX_RING_SIZE - 1))
      H.E1000_RDLEN v4) H.E1000_RA v5) (H.E1000_RA + 1) v6).mem = s.mem ∧
    (reg_write (reg_write (reg_write (reg_write (reg_write (reg_write s
      H.E1000_RDBAL ra) H.E1000_RDH 0) H.E1000_RDT (RX_RING_SIZE - 1))
      H.E1000_RDLEN v4) H.E1000_RA v5) (H.E1000_RA + 1) v6).allocs = s.allocs ∧
    (reg_write (reg_write (reg_write (reg_write (reg_write (reg_write s
      H.E1000_RDBAL ra) H.E1000_RDH 0) H.E1000_RDT (RX_RING_SIZE - 1))
      H.E1000_RDLEN v4) H.E1000_RA v5) (H.E1000_RA + 1) v6).locked = s.locked ∧
    (∀ r, r ∉ [H.E1000_RDBAL, H.E1000_RDLEN, H.E1000_RA, H.E1000_RA + 1] →
      (reg_write (reg_write (reg_write (reg_write (reg_write (reg_write s
        H.E1000_RDBAL ra) H.E1000_RDH 0) H.E1000_RDT (RX_RING_SIZE - 1))
        H.E1000_RDLEN v4) H.E1000_RA v5) (H.E1000_RA + 1) v6).regs r
      = upd (upd s.regs H.E1000_RDH 0) H.E1000_RDT 15 r) := by
  refine ⟨by simp only [reg_write_tx_ring], by simp only [reg_write_tx_mbufs],
    by simp only [reg_write_rx_ring], by simp only [reg_write_rx_mbufs],
    by simp only [reg_write_mem], by simp only [reg_write_allocs],
    by simp only [reg_write_locked], ?_⟩
  intro r hr
  simp only [List.mem_cons, List.mem_singleton, List.not_mem_nil, not_or, or_false] at hr
  obtain ⟨r1, r2, r3, r4⟩ := hr
  simp only [reg_write_regs]
  rw [upd_other _ _ _ _ r4, upd_other _ _ _ _ r3, upd_other _ _ _ _ r2]
  have h15 : (RX_RING_SIZE - 1) % 2 ^ 32 = 15 := by decide
  have h0 : 0 % 2 ^ 32 = 0 := by decide
  rw [h15, h0]
  by_cases e1 : r = H.E1000_RDT
  · rw [e1, upd_same, upd_same]
  · rw [upd_other _ _ _ _ e1, upd_other _ _ _ _ e1]
    by_cases e2 : r = H.E1000_RDH
    · rw [e2, upd_same, upd_same]
    · rw [upd_other _ _ _ _ e2, upd_other _ _ _ _ e2, upd_other _ _ _ _ r1]

/-- The end of `e1000_init` when the size check of line 63 passes: the call returns; rings,
tracking arrays, buffers, allocator and lock are as before; a register that is none of the
registers stored into after line 66 holds what lines 65 and 66 leave in it. -/
theorem e1000_init_finish_spec (H : Hdr) (ra : Nat) (s : State)
    (hsz : (RX_RING_SIZE * H.sizeof_rx_desc) % 128 = 0) :
    ∃ s4, e1000_init_finish H ra s = .ret () s4 ∧
      s4.tx_ring = s.tx_ring ∧ s4.tx_mbufs = s.tx_mbufs ∧ s4.rx_ring = s.rx_ring ∧
      s4.rx_mbufs = s.rx_mbufs ∧ s4.mem = s.mem ∧ s4.allocs = s.allocs ∧
      s4.locked = s.locked ∧
      (∀ r, r ∉ [H.E1000_RDBAL, H.E1000_RDLEN, H.E1000_RA, H.E1000_RA + 1, H.E1000_TCTL,
            H.E1000_TIPG, H.E1000_RCTL, H.E1000_RDTR, H.E1000_RADV, H.E1000_IMS] →
        (∀ i, i < 4096 / 32 → ¬ H.E1000_MTA + i = r) →
        s4.regs r = upd (upd s.regs H.E1000_RDH 0) H.E1000_RDT 15 r) := by
  have hA := e1000_init_tail_stores H
    (List.foldl (fun s i => reg_write s (H.E1000_MTA + i) 0)
      (reg_write (reg_write (reg_write (reg_write (reg_write (reg_write s
        H.E1000_RDBAL ra) H.E1000_RDH 0) H.E1000_RDT (RX_RING_SIZE - 1))
        H.E1000_RDLEN (RX_RING_SIZE * H.sizeof_rx_desc)) H.E1000_RA 0x12005452)
        (H.E1000_RA + 1) (0x5634 ||| (1 <<< 31)))
      (List.range (4096 / 32)))
    (H.E1000_TCTL_EN ||| H.E1000_TCTL_PSP |||
      (0x10 <<< H.E1000_TCTL_CT_SHIFT) ||| (0x40 <<< H.E1000_TCTL_COLD_SHIFT))
    (10 ||| (8 <<< 10) ||| (6 <<< 20))
    (H.E1000_RCTL_EN ||| H.E1000_RCTL_BAM ||| H.E1000_RCTL_SZ_2048 ||| H.E1000_RCTL_SECRC)
    0 0 (1 <<< 7)
  have hC := e1000_init_mta_loop_spec H.E1000_MTA (List.range (4096 / 32))
    (reg_write (reg_write (reg_write (reg_write (reg_write (reg_write s
        H.E1000_RDBAL ra) H.E1000_RDH 0) H.E1000_RDT (RX_RING_SIZE - 1))
        H.E1000_RDLEN (RX_RING_SIZE * H.sizeof_rx_desc)) H.E1000_RA 0x12005452)
        (H.E1000_RA + 1) (0x5634 ||| (1 <<< 31)))
  have hB := e1000_init_head_stores H s ra (RX_RING_SIZE * H.sizeof_rx_desc) 0x12005452
    (0x5634 ||| (1 <<< 31))
  refine ⟨_, e1000_init_finish_eq H ra s hsz, hA.1.trans (hC.1.trans hB.1),
    hA.2.1.trans (hC.2.1.trans hB.2.1), hA.2.2.1.trans (hC.2.2.1.trans hB.2.2.1),
    hA.2.2.2.1.trans (hC.2.2.2.1.trans hB.2.2.2.1),
    hA.2.2.2.2.1.trans (hC.2.2.2.2.1.trans hB.2.2.2.2.1),
    hA.2.2.2.2.2.1.trans (hC.2.2.2.2.2.1.trans hB.2.2.2.2.2.1),
    hA.2.2.2.2.2.2.1.trans (hC.2.2.2.2.2.2.1.trans hB.2.2.2.2.2.2.1), ?_⟩
  intro r hr hm
  simp only [List.mem_cons, List.mem_singleton, List.not_mem_nil, not_or, or_false] at hr
  obtain ⟨r1, r2, r3, r4, r5, r6, r7, r8, r9, r10⟩ := hr
  have e1 := hA.2.2.2.2.2.2.2 r (by
    simp only [List.mem_cons, List.mem_singleton, List.not_mem_nil, not_or, or_false]
    exact ⟨r5, r6, r7, r8, r9, r10⟩)
  have e2 := hC.2.2.2.2.2.2.2 r (fun i hi => hm i (List.mem_range.1 hi))
  have e3 := hB.2.2.2.2.2.2.2 r (by
    simp only [List.mem_cons, List.mem_singleton, List.not_mem_nil, not_or, or_false]
    exact ⟨r1, r2, r3, r4⟩)
  exact e1.trans (e2.trans e3)

/-- The field `tx_mbufs` after clearing the TX ring. -/
theorem memset_tx_ring_tx_mbufs (s : State) : (memset_tx_ring s).tx_mbufs = s.tx_mbufs :=
  rfl

/-- The field `rx_ring` after clearing the TX ring. -/
theorem memset_tx_ring_rx_ring (s : State) : (memset_tx_ring s).rx_ring = s.rx_ring :=
  rfl

/-- The field `rx_mbufs` after clearing the TX ring. -/
theorem memset_tx_ring_rx_mbufs (s : State) : (memset_tx_ring s).rx_mbufs = s.rx_mbufs :=
  rfl

/-- The field `regs` after clearing the TX ring. -/
theorem memset_tx_ring_regs (s : State) : (memset_tx_ring s).regs = s.regs :=
  rfl

/-- The field `mem` after clearing the TX ring. -/
theorem memset_tx_ring_mem (s : State) : (memset_tx_ring s).mem = s.mem :=
  rfl

/-- The field `allocs` after clearing the TX ring. -/
theorem memset_tx_ring_allocs (s : State) : (memset_tx_ring s).allocs = s.allocs :=
  rfl

/-- The field `locked` after clearing the TX ring. -/
theorem memset_tx_ring_locked (s : State) : (memset_tx_ring s).locked = s.locked :=
  rfl

/-- The field `tx_ring` after clearing the RX ring. -/
theorem memset_rx_ring_tx_ring (s : State) : (memset_rx_ring s).tx_ring = s.tx_ring :=
  rfl

/-- The field `tx_mbufs` after clearing the RX ring. -/
theorem memset_rx_ring_tx_mbufs (s : State) : (memset_rx_ring s).tx_mbufs = s.tx_mbufs :=
  rfl

/-- The field `rx_mbufs` after clearing the RX ring. -/
theorem memset_rx_ring_rx_mbufs (s : State) : (memset_rx_ring s).rx_mbufs = s.rx_mbufs :=
  rfl

/-- The field `regs` after clearing the RX ring. -/
theorem memset_rx_ring_regs (s : State) : (memset_rx_ring s).regs = s.regs :=
  rfl

/-- The field `mem` after clearing the RX ring. -/
theorem memset_rx_ring_mem (s : State) : (memset_rx_ring s).mem = s.mem :=
  rfl

/-- The field `allocs` after clearing the RX ring. -/
theorem memset_rx_ring_allocs (s : State) : (memset_rx_ring s).allocs = s.allocs :=
  rfl

/-- The field `locked` after clearing the RX ring. -/
theorem memset_rx_ring_locked (s : State) : (memset_rx_ring s).locked = s.locked :=
  rfl

/-- The trace after clearing the TX ring. -/
theorem memset_tx_ring_trace (s : State) :
    (memset_tx_ring s).trace = s.trace ++ [.memset_tx_ring] :=
  rfl

/-- The trace after clearing the RX ring. -/
theorem memset_rx_ring_trace (s : State) :
    (memset_rx_ring s).trace = s.trace ++ [.memset_rx_ring] :=
  rfl

/-- The RX ring after clearing it. -/
theorem memset_rx_ring_rx_ring (s : State) (i : Nat) (hi : i < RX_RING_SIZE) :
    (memset_rx_ring s).rx_ring i = ⟨0, 0, 0, 0, 0, 0⟩ := by
  simp [memset_rx_ring, hi]

/-- The shape of `e1000_init`: a state `S1` reached at the size check of line 49 and a state
`S2` reached before the receive loop, with what lines 32-55 have made of them; the call
panics in `S1` when the check fails, and otherwise goes on from the outcome of the receive
loop run in `S2`. -/
theorem e1000_init_shape (H : Hdr) (xregs : Nat → Nat) (ta ra : Nat) (s : State) :
    ∃ S1 S2 : State,
      (∃ ev, S1.trace = s.trace ++ ev ∧
        reg_writes ev = [H.E1000_IMS, H.E1000_CTL, H.E1000_IMS, H.E1000_TDBAL]) ∧
      (∃ ev, S2.trace = s.trace ++ ev ∧
        reg_writes ev = [H.E1000_IMS, H.E1000_CTL, H.E1000_IMS, H.E1000_TDBAL,
          H.E1000_TDLEN, H.E1000_TDT, H.E1000_TDH]) ∧
      S2.allocs = s.allocs ∧ S2.mem = s.mem ∧ S2.locked = false ∧
      (∀ i, i < TX_RING_SIZE → (S2.tx_ring i).status = H.E1000_TXD_STAT_DD % 2 ^ 8 ∧
        S2.tx_mbufs i = 0) ∧
      (∀ i, i < RX_RING_SIZE → S2.rx_ring i = ⟨0, 0, 0, 0, 0, 0⟩) ∧
      S2.regs H.E1000_TDT = 0 ∧ S2.regs H.E1000_TDH = 0 ∧
      ((TX_RING_SIZE * H.sizeof_tx_desc) % 128 ≠ 0 →
        e1000_init H xregs ta ra s = .panic S1) ∧
      ((TX_RING_SIZE * H.sizeof_tx_desc) % 128 = 0 → ∀ s3,
        e1000_init_rx (List.range RX_RING_SIZE) S2 = .ret () s3 →
        e1000_init H xregs ta ra s = e1000_init_finish H ra s3) ∧
      ((TX_RING_SIZE * H.sizeof_tx_desc) % 128 = 0 → ∀ s3,
        e1000_init_rx (List.range RX_RING_SIZE) S2 = .panic s3 →
        e1000_init H xregs ta ra s = .panic s3) := by
  obtain ⟨l1, l2, l3, l4, l5, l6, ⟨ev, l7, l8⟩, l9, _⟩ :=
    e1000_init_tx_loop_spec H (List.range TX_RING_SIZE)
      (memset_tx_ring (reg_write (reg_write (reg_write ({ initlock s with regs := xregs } : State) H.E1000_IMS 0) H.E1000_CTL
      ((reg_write ({ initlock s with regs := xregs } : State) H.E1000_IMS 0).regs H.E1000_CTL ||| H.E1000_CTL_RST)) H.E1000_IMS 0))
  refine ⟨(reg_write (List.foldl (e1000_init_tx_slot H) (memset_tx_ring (reg_write (reg_write (reg_write ({ initlock s with regs := xregs } : State) H.E1000_IMS 0) H.E1000_CTL
      ((reg_write ({ initlock s with regs := xregs } : State) H.E1000_IMS 0).regs H.E1000_CTL ||| H.E1000_CTL_RST)) H.E1000_IMS 0)) (List.range TX_RING_SIZE)) H.E1000_TDBAL ta),
    (memset_rx_ring (reg_write (reg_write (reg_write (reg_write (List.foldl (e1000_init_tx_slot H) (memset_tx_ring (reg_write (reg_write (reg_write ({ initlock s with regs := xregs } : State) H.E1000_IMS 0) H.E1000_CTL
      ((reg_write ({ initlock s with regs := xregs } : State) H.E1000_IMS 0).regs H.E1000_CTL ||| H.E1000_CTL_RST)) H.E1000_IMS 0)) (List.range TX_RING_SIZE)) H.E1000_TDBAL ta)
      H.E1000_TDLEN (TX_RING_SIZE * H.sizeof_tx_desc)) H.E1000_TDT 0) H.E1000_TDH 0)),
    ?_, ?_, ?_, ?_, ?_, ?_, ?_, ?_, ?_, ?_, ?_, ?_⟩
  · refine ⟨[.reg_write H.E1000_IMS (0 % 2 ^ 32),
      .reg_write H.E1000_CTL (((reg_write ({ initlock s with regs := xregs } : State) H.E1000_IMS 0).regs H.E1000_CTL |||
        H.E1000_CTL_RST) % 2 ^ 32),
      .reg_write H.E1000_IMS (0 % 2 ^ 32), .memset_tx_ring] ++ ev ++
      [.reg_write H.E1000_TDBAL (ta % 2 ^ 32)], ?_, ?_⟩
    · simp only [reg_write_trace, l7, memset_tx_ring_trace, List.append_assoc,
        List.cons_append, List.nil_append, List.singleton_append]
      rfl
    · simp [reg_writes_append, reg_writes, l8]
  · refine ⟨[.reg_write H.E1000_IMS (0 % 2 ^ 32),
      .reg_write H.E1000_CTL (((reg_write ({ initlock s with regs := xregs } : State) H.E1000_IMS 0).regs H.E1000_CTL |||
        H.E1000_CTL_RST) % 2 ^ 32),
      .reg_write H.E1000_IMS (0 % 2 ^ 32), .memset_tx_ring] ++ ev ++
      [.reg_write H.E1000_TDBAL (ta % 2 ^ 32),
       .reg_write H.E1000_TDLEN ((TX_RING_SIZE * H.sizeof_tx_desc) % 2 ^ 32),
       .reg_write H.E1000_TDT (0 % 2 ^ 32), .reg_write H.E1000_TDH (0 % 2 ^ 32),
       .memset_rx_ring], ?_, ?_⟩
    · simp only [reg_write_trace, l7, memset_tx_ring_trace, memset_rx_ring_trace,
        List.append_assoc, List.cons_append, List.nil_append, List.singleton_append]
      rfl
    · simp [reg_writes_append, reg_writes, l8]
  · simp only [memset_rx_ring_allocs, reg_write_allocs, l5, memset_tx_ring_allocs]
    rfl
  · simp only [memset_rx_ring_mem, reg_write_mem, l4, memset_tx_ring_mem]
    rfl
  · simp only [memset_rx_ring_locked, reg_write_locked, l6, memset_tx_ring_locked]
    rfl
  · intro i hi
    simp only [memset_rx_ring_tx_ring, memset_rx_ring_tx_mbufs, reg_write_tx_ring,
      reg_write_tx_mbufs]
    exact l9 i (List.mem_range.2 hi)
  · intro i hi
    exact memset_rx_ring_rx_ring _ i hi
  · simp only [memset_rx_ring_regs, reg_write_regs]
    by_cases e : H.E1000_TDT = H.E1000_TDH
    · rw [e, upd_same]
      exact Nat.zero_mod _
    · rw [upd_other _ _ _ _ e, upd_same]
      exact Nat.zero_mod _
  · simp only [memset_rx_ring_regs, reg_write_regs]
    rw [upd_same]
    exact Nat.zero_mod _
  · intro hsz
    unfold e1000_init
    rw [if_pos hsz]
  · intro hsz s3 h3
    unfold e1000_init
    rw [if_neg (by simp [hsz])]
    simp only [h3]
  · intro hsz s3 h3
    unfold e1000_init
    rw [if_neg (by simp [hsz])]
    simp only [h3]

/-- The four ways through `e1000_init`: a panic at the size check of line 49, a panic of the
receive loop at the first failed allocation, a panic at the size check of line 63, and
the return; with the registers stored into up to the panic, and the state at the return. -/
theorem e1000_init_cases (H : Hdr) (xregs : Nat → Nat) (ta ra : Nat) (s : State) :
    ((TX_RING_SIZE * H.sizeof_tx_desc) % 128 ≠ 0 →
      (e1000_init H xregs ta ra s).panicked = true ∧
      ∃ ev, (e1000_init H xregs ta ra s).state.trace = s.trace ++ ev ∧
        reg_writes ev = [H.E1000_IMS, H.E1000_CTL, H.E1000_IMS, H.E1000_TDBAL]) ∧
    ((TX_RING_SIZE * H.sizeof_tx_desc) % 128 = 0 →
      (∃ k, k < RX_RING_SIZE ∧ s.allocs.getD k 0 = 0) →
      (e1000_init H xregs ta ra s).panicked = true ∧
      ∃ ev, (e1000_init H xregs ta ra s).state.trace = s.trace ++ ev ∧
        reg_writes ev = [H.E1000_IMS, H.E1000_CTL, H.E1000_IMS, H.E1000_TDBAL,
          H.E1000_TDLEN, H.E1000_TDT, H.E1000_TDH]) ∧
    ((TX_RING_SIZE * H.sizeof_tx_desc) % 128 = 0 →
      (∀ k, k < RX_RING_SIZE → s.allocs.getD k 0 ≠ 0) →
      (RX_RING_SIZE * H.sizeof_rx_desc) % 128 ≠ 0 →
      (e1000_init H xregs ta ra s).panicked = true ∧
      ∃ ev, (e1000_init H xregs ta ra s).state.trace = s.trace ++ ev ∧
        reg_writes ev = [H.E1000_IMS, H.E1000_CTL, H.E1000_IMS, H.E1000_TDBAL,
          H.E1000_TDLEN, H.E1000_TDT, H.E1000_TDH, H.E1000_RDBAL]) ∧
    ((TX_RING_SIZE * H.sizeof_tx_desc) % 128 = 0 →
      (∀ k, k < RX_RING_SIZE → s.allocs.getD k 0 ≠ 0) →
      (RX_RING_SIZE * H.sizeof_rx_desc) % 128 = 0 →
      (e1000_init H xregs ta ra s).returned = some () ∧
      (∀ i, i < TX_RING_SIZE →
        ((e1000_init H xregs ta ra s).state.tx_ring i).status
          = H.E1000_TXD_STAT_DD % 2 ^ 8 ∧
        (e1000_init H xregs ta ra s).state.tx_mbufs i = 0) ∧
      (∀ i, i < RX_RING_SIZE →
        (e1000_init H xregs ta ra s).state.rx_mbufs i = s.allocs.getD i 0 ∧
        ((e1000_init H xregs ta ra s).state.rx_ring i).addr
          = (s.mem (s.allocs.getD i 0)).head ∧
        ((e1000_init H xregs ta ra s).state.rx_ring i).status = 0) ∧
      (e1000_init H xregs ta ra s).state.mem = s.mem ∧
      (e1000_init H xregs ta ra s).state.locked = false ∧
      ∃ R2 : Nat → Nat, R2 H.E1000_TDT = 0 ∧ R2 H.E1000_TDH = 0 ∧
        ∀ r, r ∉ [H.E1000_RDBAL, H.E1000_RDLEN, H.E1000_RA, H.E1000_RA + 1, H.E1000_TCTL,
              H.E1000_TIPG, H.E1000_RCTL, H.E1000_RDTR, H.E1000_RADV, H.E1000_IMS] →
          (∀ i, i < 4096 / 32 → ¬ H.E1000_MTA + i = r) →
          (e1000_init H xregs ta ra s).state.regs r
            = upd (upd R2 H.E1000_RDH 0) H.E1000_RDT 15 r) := by
  obtain ⟨S1, S2, ⟨ev1, t1, w1⟩, ⟨ev2, t2, w2⟩, hal, hmem, hlk, htx, hrx, hT, hTH, c1, c2, c3⟩ :=
    e1000_init_shape H xregs ta ra s
  refine ⟨?_, ?_, ?_, ?_⟩
  · intro hsz
    rw [c1 hsz]
    exact ⟨rfl, ev1, t1, w1⟩
  · intro hsz hex
    obtain ⟨k, hk, hz⟩ := hex
    obtain ⟨s3, h3, _, ev3, t3, w3⟩ := e1000_init_rx_fail (List.range RX_RING_SIZE) S2
      ⟨k, by simpa using hk, by rw [hal]; exact hz⟩
    rw [c3 hsz s3 h3]
    refine ⟨rfl, ev2 ++ ev3, ?_, ?_⟩
    · show s3.trace = _
      rw [t3, t2, List.append_assoc]
    · rw [reg_writes_append, w2, w3, List.append_nil]
  · intro hsz hall hsz2
    obtain ⟨s3, h3, _, _, _, _, _, ⟨ev3, t3, w3⟩, _, _⟩ :=
      e1000_init_rx_ok (List.range RX_RING_SIZE) S2 (List.nodup_range _)
        (fun k hk => by rw [hal]; exact hall k (by simpa using hk))
    rw [c2 hsz s3 h3, e1000_init_finish_panic H ra s3 hsz2]
    refine ⟨rfl, ev2 ++ ev3 ++ [.reg_write H.E1000_RDBAL (ra % 2 ^ 32)], ?_, ?_⟩
    · show (reg_write s3 H.E1000_RDBAL ra).trace = _
      rw [reg_write_trace, t3, t2]
      simp only [List.append_assoc]
    · simp [reg_writes_append, reg_writes, w2, w3]
  · intro hsz hall hsz2
    obtain ⟨s3, h3, g1, g2, g3, g4, g5, _, g8, _⟩ :=
      e1000_init_rx_ok (List.range RX_RING_SIZE) S2 (List.nodup_range _)
        (fun k hk => by rw [hal]; exact hall k (by simpa using hk))
    obtain ⟨s4, h4, f1, f2, f3, f4, f5, _, f7, f8⟩ := e1000_init_finish_spec H ra s3 hsz2
    rw [c2 hsz s3 h3, h4]
    refine ⟨rfl, ?_, ?_, ?_, ?_, ?_⟩
    · intro i hi
      show (s4.tx_ring i).status = _ ∧ s4.tx_mbufs i = 0
      rw [f1, f2, g2, g3]
      exact htx i hi
    · intro i hi
      have hi2 : i < (List.range RX_RING_SIZE).length := by simpa using hi
      have hget : (List.range RX_RING_SIZE).getD i 0 = i := by
        rw [List.getD_eq_getElem _ _ hi2, List.getElem_range]
      obtain ⟨e1, e2, e3⟩ := g8 i hi2
      rw [hget] at e1 e2 e3
      show s4.rx_mbufs i = _ ∧ (s4.rx_ring i).addr = _ ∧ (s4.rx_ring i).status = 0
      rw [f3, f4, e1, e2, e3, hal, hmem, hrx i hi]
      exact ⟨rfl, rfl, rfl⟩
    · show s4.mem = s.mem
      rw [f5, g4, hmem]
    · show s4.locked = false
      rw [f7, g5, hlk]
    · refine ⟨S2.regs, hT, hTH, ?_⟩
      intro r hr hm
      show s4.regs r = _
      rw [f8 r hr hm, g1]

/-- What the claims need of a header that gives every register an index of its own: the
head and tail registers of the rings are none of the registers that `e1000_init` stores
into after line 66, and differ from each other and from `E1000_ICR`; `E1000_RCTL` is none
of the registers stored into up to line 62. -/
theorem regs_distinct_facts (H : Hdr) (h : H.regs_distinct) :
    (H.E1000_TDT ∉ [H.E1000_RDBAL, H.E1000_RDLEN, H.E1000_RA, H.E1000_RA + 1, H.E1000_TCTL, H.E1000_TIPG, H.E1000_RCTL, H.E1000_RDTR, H.E1000_RADV, H.E1000_IMS]) ∧
    (∀ i, i < 4096 / 32 → ¬ H.E1000_MTA + i = H.E1000_TDT) ∧
    (H.E1000_TDH ∉ [H.E1000_RDBAL, H.E1000_RDLEN, H.E1000_RA, H.E1000_RA + 1, H.E1000_TCTL, H.E1000_TIPG, H.E1000_RCTL, H.E1000_RDTR, H.E1000_RADV, H.E1000_IMS]) ∧
    (∀ i, i < 4096 / 32 → ¬ H.E1000_MTA + i = H.E1000_TDH) ∧
    (H.E1000_RDH ∉ [H.E1000_RDBAL, H.E1000_RDLEN, H.E1000_RA, H.E1000_RA + 1, H.E1000_TCTL, H.E1000_TIPG, H.E1000_RCTL, H.E1000_RDTR, H.E1000_RADV, H.E1000_IMS]) ∧
    (∀ i, i < 4096 / 32 → ¬ H.E1000_MTA + i = H.E1000_RDH) ∧
    (H.E1000_RDT ∉ [H.E1000_RDBAL, H.E1000_RDLEN, H.E1000_RA, H.E1000_RA + 1, H.E1000_TCTL, H.E1000_TIPG, H.E1000_RCTL, H.E1000_RDTR, H.E1000_RADV, H.E1000_IMS]) ∧
    (∀ i, i < 4096 / 32 → ¬ H.E1000_MTA + i = H.E1000_RDT) ∧
    (H.E1000_TDT ≠ H.E1000_RDT) ∧
    (H.E1000_TDH ≠ H.E1000_RDT) ∧
    (H.E1000_RDH ≠ H.E1000_RDT) ∧
    (H.E1000_TDT ≠ H.E1000_RDH) ∧
    (H.E1000_TDH ≠ H.E1000_RDH) ∧
    (H.E1000_TDT ≠ H.E1000_ICR) ∧
    (H.E1000_RCTL ∉ [H.E1000_IMS, H.E1000_CTL, H.E1000_IMS, H.E1000_TDBAL, H.E1000_TDLEN, H.E1000_TDT, H.E1000_TDH, H.E1000_RDBAL]) := by
  unfold Hdr.regs_distinct Hdr.regs at h
  obtain ⟨h1, _, h3⟩ := List.nodup_append.1 h
  refine ⟨?_, ?_, ?_, ?_, ?_, ?_, ?_, ?_, ?_, ?_, ?_, ?_, ?_, ?_, ?_⟩
  · intro e
    simp only [List.mem_cons, List.mem_singleton, List.not_mem_nil, or_false] at e
    rcases e with e | e | e | e | e | e | e | e | e | e <;>
      simp only [e, List.nodup_cons, List.mem_cons, List.mem_singleton, true_or, or_true,
        not_true_eq_false, false_and, and_false] at h1
  · intro i hi e
    refine h3 (a := H.E1000_TDT) ?_ (List.mem_map.2 ⟨i, List.mem_range.2 hi, e⟩)
    simp only [List.mem_cons, List.mem_singleton, true_or, or_true]
  · intro e
    simp only [List.mem_cons, List.mem_singleton, List.not_mem_nil, or_false] at e
    rcases e with e | e | e | e | e | e | e | e | e | e <;>
      simp only [e, List.nodup_cons, List.mem_cons, List.mem_singleton, true_or, or_true,
        not_true_eq_false, false_and, and_false] at h1
  · intro i hi e
    refine h3 (a := H.E1000_TDH) ?_ (List.mem_map.2 ⟨i, List.mem_range.2 hi, e⟩)
    simp only [List.mem_cons, List.mem_singleton, true_or, or_true]
  · intro e
    simp only [List.mem_cons, List.mem_singleton, List.not_mem_nil, or_false] at e
    rcases e with e | e | e | e | e | e | e | e | e | e <;>
      simp only [e, List.nodup_cons, List.mem_cons, List.mem_singleton, true_or, or_true,
        not_true_eq_false, false_and, and_false] at h1
  · intro i hi e
    refine h3 (a := H.E1000_RDH) ?_ (List.mem_map.2 ⟨i, List.mem_range.2 hi, e⟩)
    simp only [List.mem_cons, List.mem_singleton, true_or, or_true]
  · intro e
    simp only [List.mem_cons, List.mem_singleton, List.not_mem_nil, or_false] at e
    rcases e with e | e | e | e | e | e | e | e | e | e <;>
      simp only [e, List.nodup_cons, List.mem_cons, List.mem_singleton, true_or, or_true,
        not_true_eq_false, false_and, and_false] at h1
  · intro i hi e
    refine h3 (a := H.E1000_RDT) ?_ (List.mem_map.2 ⟨i, List.mem_range.2 hi, e⟩)
    simp only [List.mem_cons, List.mem_singleton, true_or, or_true]
  · intro e
    simp only [e, List.nodup_cons, List.mem_cons, List.mem_singleton, true_or, or_true,
        not_true_eq_false, false_and, and_false] at h1
  · intro e
    simp only [e, List.nodup_cons, List.mem_cons, List.mem_singleton, true_or, or_true,
        not_true_eq_false, false_and, and_false] at h1
  · intro e
    simp only [e, List.nodup_cons, List.mem_cons, List.mem_singleton, true_or, or_true,
        not_true_eq_false, false_and, and_false] at h1
  · intro e
    simp only [e, List.nodup_cons, List.mem_cons, List.mem_singleton, true_or, or_true,
        not_true_eq_false, false_and, and_false] at h1
  · intro e
    simp only [e, List.nodup_cons, List.mem_cons, List.mem_singleton, true_or, or_true,
        not_true_eq_false, false_and, and_false] at h1
  · intro e
    simp only [e, List.nodup_cons, List.mem_cons, List.mem_singleton, true_or, or_true,
        not_true_eq_false, false_and, and_false] at h1
  · intro e
    simp only [List.mem_cons, List.mem_singleton, List.not_mem_nil, or_false] at e
    rcases e with e | e | e | e | e | e | e | e <;>
      simp only [e, List.nodup_cons, List.mem_cons, List.mem_singleton, true_or, or_true,
        not_true_eq_false, false_and, and_false] at h1

/-- A call that panicked did not return. -/
theorem returned_of_panicked {α : Type} (o : Outcome α) (h : o.panicked = true) :
    o.returned = none := by
  cases o with
  | ret v s => simp [Outcome.panicked] at h
  | panic s => rfl
  | stuck s => rfl
  | fault s => rfl

/-- When `e1000_init` returns, both size checks have passed and the allocator had a buffer
for each of the 16 RX slots. -/
theorem e1000_init_returned (H : Hdr) (xregs : Nat → Nat) (ta ra : Nat) (s : State)
    (hret : (e1000_init H xregs ta ra s).returned = some ()) :
    (TX_RING_SIZE * H.sizeof_tx_desc) % 128 = 0 ∧
    (∀ k, k < RX_RING_SIZE → s.allocs.getD k 0 ≠ 0) ∧
    (RX_RING_SIZE * H.sizeof_rx_desc) % 128 = 0 := by
  obtain ⟨c1, c2, c3, _⟩ := e1000_init_cases H xregs ta ra s
  have h1 : (TX_RING_SIZE * H.sizeof_tx_desc) % 128 = 0 := by
    by_contra hne
    have := returned_of_panicked _ (c1 hne).1
    rw [this] at hret
    exact Option.noConfusion hret
  have h2 : ∀ k, k < RX_RING_SIZE → s.allocs.getD k 0 ≠ 0 := by
    intro k hk hz
    have := returned_of_panicked _ (c2 h1 ⟨k, hk, hz⟩).1
    rw [this] at hret
    exact Option.noConfusion hret
  refine ⟨h1, h2, ?_⟩
  by_contra hne
  have := returned_of_panicked _ (c3 h1 h2 hne).1
  rw [this] at hret
  exact Option.noConfusion hret

/-- C1, on the machine `boot`: after `e1000_init`, two consecutive calls of `e1000_transmit`
with the frames at `0x87e00000` and `0x87e01000` both return 0, and the second frame is put
into slot 7, not slot 1: `tx_mbufs[1]` is still null and the descriptor of slot 1 is still
zero, while `tx_mbufs[7]` is the second frame. -/
theorem transmit_second_frame_lands_in_slot_7 :
    (transmit_run e1000_dev [0x87e00000, 0x87e01000] after_init).1 = [0, 0] ∧
    (transmit_run e1000_dev [0x87e00000, 0x87e01000] after_init).2.tx_mbufs 0 = 0x87e00000 ∧
    (transmit_run e1000_dev [0x87e00000, 0x87e01000] after_init).2.tx_mbufs 1 = 0 ∧
    ((transmit_run e1000_dev [0x87e00000, 0x87e01000] after_init).2.tx_ring 1).addr = 0 ∧
    ((transmit_run e1000_dev [0x87e00000, 0x87e01000] after_init).2.tx_ring 1).length = 0 ∧
    (transmit_run e1000_dev [0x87e00000, 0x87e01000] after_init).2.tx_mbufs 7 = 0x87e01000 ∧
    (after_init.mem 0x87e01000).len = 60 := by
  decide

/-- C2, on the machine `boot`: after `e1000_init`, when the hardware has marked RX slot 0
done (M = 1), one call of `e1000_recv` returns without passing any buffer to `net_rx`; and
when the hardware has marked all 16 slots done (M = 16, Scenario A), one call passes a
single buffer, the one tracked at slot 7. -/
theorem recv_inspects_only_slot_7 :
    (e1000_recv e1000_dev (hw_receive_first e1000_dev 1 after_init)).returned = some () ∧
    delivered (e1000_recv e1000_dev (hw_receive_first e1000_dev 1 after_init)).state.trace = [] ∧
    (e1000_recv e1000_dev (hw_receive_first e1000_dev 16 after_init)).returned = some () ∧
    delivered (e1000_recv e1000_dev (hw_receive_first e1000_dev 16 after_init)).state.trace
      = [after_init.rx_mbufs 7] := by
  decide

/-- C3, on the machine `boot`: after `e1000_init` and the arrival of 8 frames (slots 0..7
done), two consecutive calls of `e1000_recv`, the hardware writing nothing in between,
pass the buffer of slot 7 to `net_rx` twice. -/
theorem recv_twice_delivers_same_buffer_twice :
    delivered (recv_run e1000_dev 2 (hw_receive_first e1000_dev 8 after_init)).trace
      = [0x87f08000, 0x87f08000] ∧
    after_init.rx_mbufs 7 = 0x87f08000 := by
  decide

/-- C4, on the machine `boot`: the lock is free after `e1000_init`; a call of `e1000_recv`
that finds slot 7 not ready returns with the lock held, and so does a call of
`e1000_transmit` that returns -1 on a ring whose slots are all pending; the next call of
`e1000_transmit` after such a return never gets the lock. -/
theorem early_return_keeps_lock_held :
    after_init.locked = false ∧
    (e1000_recv e1000_dev after_init).returned = some () ∧
    (e1000_recv e1000_dev after_init).state.locked = true ∧
    (e1000_transmit e1000_dev 0x87e00000 (tx_pending after_init)).returned = some (-1) ∧
    (e1000_transmit e1000_dev 0x87e00000 (tx_pending after_init)).state.locked = true ∧
    (e1000_transmit e1000_dev 0x87e00000 (e1000_recv e1000_dev after_init).state).returned
      = none := by
  decide

/-- C5, on the machine `boot`: after `e1000_init`, 17 consecutive calls of `e1000_transmit`
with no transmit completion in between all return 0; the 17th does not return -1. -/
theorem transmit_17th_call_returns_ok :
    (transmit_run e1000_dev ((List.range 17).map (fun i => 0x87e00000 + 0x1000 * i))
      after_init).1 = List.replicate 17 0 := by
  decide

/-- C7, on the machine `boot`: after `e1000_init` and the arrival of 8 frames, `e1000_recv`
passes the buffer of slot 7 to `net_rx`; on return `rx_mbufs[7]` is still that buffer, no
buffer was allocated, and `rx_ring[7].status` is still the done bit, not 0. -/
theorem recv_leaves_delivered_buffer_in_slot :
    delivered (e1000_recv e1000_dev (hw_receive_first e1000_dev 8 after_init)).state.trace
      = [0x87f08000] ∧
    (e1000_recv e1000_dev (hw_receive_first e1000_dev 8 after_init)).state.rx_mbufs 7
      = 0x87f08000 ∧
    ((e1000_recv e1000_dev (hw_receive_first e1000_dev 8 after_init)).state.rx_ring 7).status
      = 1 ∧
    (e1000_recv e1000_dev (hw_receive_first e1000_dev 8 after_init)).state.allocs
      = after_init.allocs := by
  decide

/-- C8, on the machine `boot`: after `e1000_init` and the arrival of 8 frames, `e1000_recv`
delivers the buffer of slot 7 and returns with `regs[E1000_RDT]` still 15, not 7. -/
theorem recv_leaves_rdt_unchanged :
    (e1000_recv e1000_dev (hw_receive_first e1000_dev 8 after_init)).returned = some () ∧
    delivered (e1000_recv e1000_dev (hw_receive_first e1000_dev 8 after_init)).state.trace
      = [after_init.rx_mbufs 7] ∧
    (e1000_recv e1000_dev (hw_receive_first e1000_dev 8 after_init)).state.regs
      e1000_dev.E1000_RDT = 15 := by
  decide

/-- C9, on the machine `boot`: after `e1000_init` the TX tail register is 0; the call
`e1000_transmit(m)` returns 0 and stores `m` in `tx_mbufs[0]`, but leaves the tail
register at 7 = (E1000_TDT + 1) mod 16, not at 1. -/
theorem transmit_sets_tdt_to_constant :
    after_init.regs e1000_dev.E1000_TDT = 0 ∧
    (e1000_transmit e1000_dev 0x87e00000 after_init).returned = some 0 ∧
    (e1000_transmit e1000_dev 0x87e00000 after_init).state.tx_mbufs 0 = 0x87e00000 ∧
    (e1000_transmit e1000_dev 0x87e00000 after_init).state.regs e1000_dev.E1000_TDT = 7 ∧
    (e1000_dev.E1000_TDT + 1) % TX_RING_SIZE = 7 := by
  decide

/-- C10, on the machine `boot`: after `e1000_init` the call `e1000_transmit(m)` returns 0
and fills slot 0 with the head and length of `m` and the flags RS and EOP, but the status
of slot 0 is still the done bit: the bit is not cleared. -/
theorem transmit_leaves_done_bit_set :
    (e1000_transmit e1000_dev 0x87e00000 after_init).returned = some 0 ∧
    ((e1000_transmit e1000_dev 0x87e00000 after_init).state.tx_ring 0).addr
      = (after_init.mem 0x87e00000).head ∧
    ((e1000_transmit e1000_dev 0x87e00000 after_init).state.tx_ring 0).length
      = (after_init.mem 0x87e00000).len ∧
    ((e1000_transmit e1000_dev 0x87e00000 after_init).state.tx_ring 0).cmd = 0x09 ∧
    ((e1000_transmit e1000_dev 0x87e00000 after_init).state.tx_ring 0).status
      = e1000_dev.E1000_TXD_STAT_DD ∧
    ((e1000_transmit e1000_dev 0x87e00000 after_init).state.tx_ring 0).status
      &&& e1000_dev.E1000_TXD_STAT_DD ≠ 0 := by
  decide

/-- C11, on the machine `boot`: after `e1000_init` and two calls of `e1000_transmit`, the
tail slot is slot 7 and `tx_mbufs[7]` holds the second frame `0x87e01000`; a third call
returns 0 and overwrites `tx_mbufs[7]` with the new frame, and no buffer was released:
no `mbuffree` is in the trace. -/
theorem transmit_reuses_slot_without_free :
    (transmit_run e1000_dev [0x87e00000, 0x87e01000] after_init).2.regs e1000_dev.E1000_TDT
      = 7 ∧
    (transmit_run e1000_dev [0x87e00000, 0x87e01000] after_init).2.tx_mbufs 7 = 0x87e01000 ∧
    (e1000_transmit e1000_dev 0x87e02000
      (transmit_run e1000_dev [0x87e00000, 0x87e01000] after_init).2).returned = some 0 ∧
    (e1000_transmit e1000_dev 0x87e02000
      (transmit_run e1000_dev [0x87e00000, 0x87e01000] after_init).2).state.tx_mbufs 7
      = 0x87e02000 ∧
    freed (e1000_transmit e1000_dev 0x87e02000
      (transmit_run e1000_dev [0x87e00000, 0x87e01000] after_init).2).state.trace = [] := by
  decide

/-- C12: for every state, every action of a call of `e1000_transmit` or of `e1000_recv`
obeys the slot protection rule: it stores into a descriptor or a tracking entry only of a
slot whose done bit is set in the state the call inspects, and into a buffer only of such
a slot; so the descriptor and the tracking entry of every slot whose done bit is unset are
as before the call, in both rings and for both calls, and no buffer at all is released. -/
theorem stores_only_into_done_slots (H : Hdr) (s : State) (m : Ptr)
    (htx : H.E1000_TXD_STAT_DD ≠ 0) (hrx : H.E1000_RXD_STAT_DD ≠ 0) :
    (∀ e ∈ new_events s (e1000_transmit H m s).state, slot_rule H s e) ∧
    (∀ e ∈ new_events s (e1000_recv H s).state, slot_rule H s e) ∧
    (∀ i, ¬ tx_done H s i →
      (e1000_transmit H m s).state.tx_ring i = s.tx_ring i ∧
      (e1000_transmit H m s).state.tx_mbufs i = s.tx_mbufs i ∧
      (e1000_recv H s).state.tx_ring i = s.tx_ring i ∧
      (e1000_recv H s).state.tx_mbufs i = s.tx_mbufs i) ∧
    (∀ i, ¬ rx_done H s i →
      (e1000_transmit H m s).state.rx_ring i = s.rx_ring i ∧
      (e1000_transmit H m s).state.rx_mbufs i = s.rx_mbufs i ∧
      (e1000_recv H s).state.rx_ring i = s.rx_ring i ∧
      (e1000_recv H s).state.rx_mbufs i = s.rx_mbufs i) ∧
    freed (new_events s (e1000_transmit H m s).state) = [] ∧
    freed (new_events s (e1000_recv H s).state) = [] := by
  have hT := e1000_transmit_cases H m s
  have hR := e1000_recv_cases H s
  have hrecv_frame : (e1000_recv H s).state.tx_ring = s.tx_ring ∧
      (e1000_recv H s).state.tx_mbufs = s.tx_mbufs ∧
      (e1000_recv H s).state.rx_ring = s.rx_ring ∧
      (e1000_recv H s).state.rx_mbufs = s.rx_mbufs := by
    rcases hR with h | h | h | h
    · simp [h.2, Outcome.state]
    · simp [h.2.2, Outcome.state]
    · simp [h.2.2.2, Outcome.state]
    · simp [h.2.2.2, Outcome.state]
  have hrecv_ev : (∀ e ∈ new_events s (e1000_recv H s).state, slot_rule H s e) ∧
      freed (new_events s (e1000_recv H s).state) = [] := by
    rcases hR with h | h | h | h
    · simp [h.2, Outcome.state, new_events, freed]
    · simp [h.2.2, Outcome.state, new_events, freed]
    · simp [h.2.2.2, Outcome.state, new_events, freed]
    · have hd : rx_done H s ((H.E1000_RDT + 1) % RX_RING_SIZE) :=
        done_of_status_eq _ _ hrx h.2.1
      have hlt : (H.E1000_RDT + 1) % RX_RING_SIZE < RX_RING_SIZE :=
        Nat.mod_lt _ (by decide)
      simp only [h.2.2.2, Outcome.state, new_events, List.drop_left]
      refine ⟨?_, by simp [freed]⟩
      intro e he
      simp only [List.mem_cons, List.mem_singleton, List.not_mem_nil, or_false] at he
      rcases he with he | he | he
      · subst he
        exact ⟨_, Or.inr ⟨hlt, rfl, hd⟩⟩
      · subst he
        trivial
      · subst he
        trivial
  have htrans : (∀ e ∈ new_events s (e1000_transmit H m s).state, slot_rule H s e) ∧
      freed (new_events s (e1000_transmit H m s).state) = [] ∧
      (∀ i, ¬ tx_done H s i →
        (e1000_transmit H m s).state.tx_ring i = s.tx_ring i ∧
        (e1000_transmit H m s).state.tx_mbufs i = s.tx_mbufs i) ∧
      (e1000_transmit H m s).state.rx_ring = s.rx_ring ∧
      (e1000_transmit H m s).state.rx_mbufs = s.rx_mbufs := by
    rcases hT with h | h | h | h | h
    · simp [h.2, Outcome.state, new_events, freed]
    · simp [h.2.2, Outcome.state, new_events, freed]
    · simp [h.2.2.2, Outcome.state, new_events, freed]
    · simp [h.2.2.2.2, Outcome.state, new_events, freed]
    · have hd : tx_done H s (s.regs H.E1000_TDT) := done_of_status_eq _ _ htx h.2.2.1
      simp only [h.2.2.2.2, Outcome.state, new_events, List.drop_left]
      refine ⟨?_, by simp [freed], ?_, trivial, trivial⟩
      · intro e he
        simp only [List.mem_cons, List.mem_singleton, List.not_mem_nil, or_false] at he
        rcases he with he | he | he | he | he | he <;> subst he <;>
          first | exact hd | trivial
      · intro i hi
        have hne : i ≠ s.regs H.E1000_TDT := by
          intro e
          subst e
          exact hi hd
        exact ⟨upd_other _ _ _ _ hne, upd_other _ _ _ _ hne⟩
  refine ⟨htrans.1, hrecv_ev.1, ?_, ?_, htrans.2.1, hrecv_ev.2⟩
  · intro i hi
    refine ⟨(htrans.2.2.1 i hi).1, (htrans.2.2.1 i hi).2, ?_, ?_⟩
    · rw [hrecv_frame.1]
    · rw [hrecv_frame.2.1]
  · intro i _
    refine ⟨?_, ?_, ?_, ?_⟩
    · rw [htrans.2.2.2.1]
    · rw [htrans.2.2.2.2]
    · rw [hrecv_frame.2.2.1]
    · rw [hrecv_frame.2.2.2]

/-- Witness of C12: the state after `e1000_init` on the machine `boot`. -/
theorem stores_only_into_done_slots_witness :
    e1000_dev.E1000_TXD_STAT_DD ≠ 0 ∧ e1000_dev.E1000_RXD_STAT_DD ≠ 0 ∧
    (∀ e ∈ new_events after_init (e1000_transmit e1000_dev 0x87e00000 after_init).state,
      slot_rule e1000_dev after_init e) ∧
    freed (new_events after_init (e1000_transmit e1000_dev 0x87e00000 after_init).state)
      = [] :=
  ⟨by decide, by decide,
    (stores_only_into_done_slots e1000_dev after_init 0x87e00000 (by decide) (by decide)).1,
    (stores_only_into_done_slots e1000_dev after_init 0x87e00000
      (by decide) (by decide)).2.2.2.2.1⟩

/-- C13: in every call of `e1000_transmit` that returns 0, the stores of the call are, in
this order, the descriptor fields `addr`, `length` and `cmd` of the tail slot, the slot's
`tx_mbufs` entry, and then the tail register `regs[E1000_TDT]`; what follows the store into
the tail register (the `printf`) is no store into a descriptor field or a `tx_mbufs`
entry. -/
theorem tail_write_follows_slot_writes (H : Hdr) (s : State) (m : Ptr)
    (hret : (e1000_transmit H m s).returned = some 0) :
    new_events s (e1000_transmit H m s).state =
      [.tx_ring_write (s.regs H.E1000_TDT) .addr (s.mem m).head,
       .tx_ring_write (s.regs H.E1000_TDT) .length ((s.mem m).len % 2 ^ 16),
       .tx_ring_write (s.regs H.E1000_TDT) .cmd
         (((s.tx_ring (s.regs H.E1000_TDT)).cmd |||
           (H.E1000_TXD_CMD_RS ||| H.E1000_TXD_CMD_EOP)) % 2 ^ 8),
       .tx_mbufs_write (s.regs H.E1000_TDT) m,
       .reg_write H.E1000_TDT ((H.E1000_TDT + 1) % TX_RING_SIZE),
       .printf] ∧
    (∀ e ∈ after_reg_write H.E1000_TDT (new_events s (e1000_transmit H m s).state),
      is_tx_slot_write e = false) := by
  rcases e1000_transmit_cases H m s with h | h | h | h | h
  · simp [h.2, Outcome.returned] at hret
  · simp [h.2.2, Outcome.returned] at hret
  · simp [h.2.2.2, Outcome.returned] at hret
  · simp [h.2.2.2.2, Outcome.returned] at hret
  · simp [h.2.2.2.2, Outcome.state, new_events, after_reg_write, is_tx_slot_write]

/-- Witness of C13: the first call of `e1000_transmit` after `e1000_init` on the machine
`boot`. -/
theorem tail_write_follows_slot_writes_witness :
    (e1000_transmit e1000_dev 0x87e00000 after_init).returned = some 0 ∧
    (∀ e ∈ after_reg_write e1000_dev.E1000_TDT
        (new_events after_init (e1000_transmit e1000_dev 0x87e00000 after_init).state),
      is_tx_slot_write e = false) :=
  ⟨by decide, (tail_write_follows_slot_writes e1000_dev after_init 0x87e00000 (by decide)).2⟩

/-- C14: when `e1000_init` returns, on a header that gives every register an index of its
own and whose TX done bit is a bit of the 8-bit status field: every TX slot has its done
bit set and a null tracking entry; every RX slot tracks the buffer that its `mbufalloc`
call returned, which is not null, has that buffer's head as address and the status 0; and
the ring registers are TDH = TDT = 0, RDH = 0 and RDT = 15. -/
theorem e1000_init_leaves_rings_ready (H : Hdr) (xregs : Nat → Nat) (ta ra : Nat) (s : State)
    (hregs : H.regs_distinct)
    (hdd : H.E1000_TXD_STAT_DD ≠ 0) (hdd8 : H.E1000_TXD_STAT_DD < 2 ^ 8)
    (hret : (e1000_init H xregs ta ra s).returned = some ()) :
    (∀ i, i < TX_RING_SIZE →
      ((e1000_init H xregs ta ra s).state.tx_ring i).status &&& H.E1000_TXD_STAT_DD ≠ 0 ∧
      (e1000_init H xregs ta ra s).state.tx_mbufs i = 0) ∧
    (∀ i, i < RX_RING_SIZE →
      (e1000_init H xregs ta ra s).state.rx_mbufs i = s.allocs.getD i 0 ∧
      (e1000_init H xregs ta ra s).state.rx_mbufs i ≠ 0 ∧
      ((e1000_init H xregs ta ra s).state.rx_ring i).addr
        = ((e1000_init H xregs ta ra s).state.mem
            ((e1000_init H xregs ta ra s).state.rx_mbufs i)).head ∧
      ((e1000_init H xregs ta ra s).state.rx_ring i).status = 0) ∧
    (e1000_init H xregs ta ra s).state.regs H.E1000_TDH = 0 ∧
    (e1000_init H xregs ta ra s).state.regs H.E1000_TDT = 0 ∧
    (e1000_init H xregs ta ra s).state.regs H.E1000_RDH = 0 ∧
    (e1000_init H xregs ta ra s).state.regs H.E1000_RDT = 15 := by
  obtain ⟨h1, h2, h3⟩ := e1000_init_returned H xregs ta ra s hret
  obtain ⟨_, _, _, c4⟩ := e1000_init_cases H xregs ta ra s
  obtain ⟨_, htx, hrx, hmem, _, R2, hT, hTH, hR⟩ := c4 h1 h2 h3
  obtain ⟨a1, a2, b1, b2, c1, c2, d1, d2, n1, n2, n3, n4, n5, _, _⟩ :=
    regs_distinct_facts H hregs
  refine ⟨?_, ?_, ?_, ?_, ?_, ?_⟩
  · intro i hi
    refine ⟨?_, (htx i hi).2⟩
    rw [(htx i hi).1, Nat.mod_eq_of_lt hdd8, Nat.and_self]
    exact hdd
  · intro i hi
    obtain ⟨e1, e2, e3⟩ := hrx i hi
    refine ⟨e1, ?_, ?_, e3⟩
    · rw [e1]
      exact h2 i hi
    · rw [e2, hmem, e1]
  · rw [hR _ b1 b2, upd_other _ _ _ _ n2, upd_other _ _ _ _ n5, hTH]
  · rw [hR _ a1 a2, upd_other _ _ _ _ n1, upd_other _ _ _ _ n4, hT]
  · rw [hR _ c1 c2, upd_other _ _ _ _ n3, upd_same]
  · rw [hR _ d1 d2, upd_same]

/-- Witness of C14: `e1000_init` on the machine `boot` with the header `e1000_dev`. -/
theorem e1000_init_leaves_rings_ready_witness :
    e1000_dev.regs_distinct ∧ e1000_dev.E1000_TXD_STAT_DD ≠ 0 ∧
    e1000_dev.E1000_TXD_STAT_DD < 2 ^ 8 ∧
    (e1000_init e1000_dev (fun _ => 0) 0x80021000 0x80021100 boot).returned = some () ∧
    (e1000_init e1000_dev (fun _ => 0) 0x80021000 0x80021100 boot).state.regs
      e1000_dev.E1000_RDT = 15 :=
  ⟨by unfold Hdr.regs_distinct; decide, by decide, by decide, by decide,
    (e1000_init_leaves_rings_ready e1000_dev (fun _ => 0) 0x80021000 0x80021100 boot
      (by unfold Hdr.regs_distinct; decide) (by decide) (by decide) (by decide)).2.2.2.2.2⟩

/-- C15: for every state, `e1000_intr` is the store of `0xffffffff` into
`regs[E1000_ICR]` followed by `e1000_recv`: the store is the first action of the call,
also when the lock is held, and the rest of the call is what `e1000_recv` does in that
state, with the same return, the same actions and the same RX ring, tracking array, buffers
and lock; the TX ring and `tx_mbufs` are unchanged, and so is every register other than
`regs[E1000_ICR]`. -/
theorem e1000_intr_acks_then_recv (H : Hdr) (s : State) :
    e1000_intr H s = e1000_recv H (reg_write s H.E1000_ICR 0xffffffff) ∧
    new_events s (e1000_intr H s).state
      = .reg_write H.E1000_ICR 0xffffffff :: new_events s (e1000_recv H s).state ∧
    (e1000_intr H s).returned = (e1000_recv H s).returned ∧
    (e1000_intr H s).state.rx_ring = (e1000_recv H s).state.rx_ring ∧
    (e1000_intr H s).state.rx_mbufs = (e1000_recv H s).state.rx_mbufs ∧
    (e1000_intr H s).state.mem = (e1000_recv H s).state.mem ∧
    (e1000_intr H s).state.locked = (e1000_recv H s).state.locked ∧
    (e1000_intr H s).state.regs H.E1000_ICR = 0xffffffff ∧
    (e1000_intr H s).state.tx_ring = s.tx_ring ∧
    (e1000_intr H s).state.tx_mbufs = s.tx_mbufs ∧
    (∀ r, r ≠ H.E1000_ICR → (e1000_intr H s).state.regs r = s.regs r) := by
  refine ⟨rfl, ?_⟩
  by_cases hl : s.locked = true
  · simp [e1000_intr, e1000_recv, acquire, reg_write, hl, Outcome.state, Outcome.returned,
      new_events, upd]
    intro r h1 h2
    exact absurd h2 h1
  · have hl2 : s.locked = false := by simpa using hl
    by_cases hst : (s.rx_ring ((H.E1000_RDT + 1) % RX_RING_SIZE)).status
        = H.E1000_RXD_STAT_DD
    · by_cases hp : s.rx_mbufs ((H.E1000_RDT + 1) % RX_RING_SIZE) = 0
      · simp [e1000_intr, e1000_recv, acquire, reg_write, hl2, hst, hp, Outcome.state,
          Outcome.returned, new_events, upd]
        intro r h1 h2
        exact absurd h2 h1
      · simp [e1000_intr, e1000_recv, acquire, reg_write, hl2, hst, hp, Outcome.state,
          Outcome.returned, new_events, upd, release, printf, State.log, net_rx,
          mbuf_len_write]
        intro r h1 h2
        exact absurd h2 h1
    · simp [e1000_intr, e1000_recv, acquire, reg_write, hl2, hst, Outcome.state,
        Outcome.returned, new_events, upd]
      intro r h1 h2
      exact absurd h2 h1

/-- C16: on a header that gives every register an index of its own, when the allocator
fails for one of the 16 RX slots, `e1000_init` panics and has made no store into
`regs[E1000_RCTL]`; and when both descriptor types are 16 bytes long, `e1000_init` panics
exactly in that case, and returns when the allocator has a buffer for each slot. -/
theorem e1000_init_alloc_failure_panics (H : Hdr) (xregs : Nat → Nat) (ta ra : Nat)
    (s : State) (hregs : H.regs_distinct) :
    ((∃ k, k < RX_RING_SIZE ∧ s.allocs.getD k 0 = 0) →
      (e1000_init H xregs ta ra s).panicked = true ∧
      H.E1000_RCTL ∉ reg_writes (new_events s (e1000_init H xregs ta ra s).state)) ∧
    (H.sizeof_tx_desc = 16 → H.sizeof_rx_desc = 16 →
      ((e1000_init H xregs ta ra s).panicked = true ↔
        ∃ k, k < RX_RING_SIZE ∧ s.allocs.getD k 0 = 0) ∧
      ((∀ k, k < RX_RING_SIZE → s.allocs.getD k 0 ≠ 0) →
        (e1000_init H xregs ta ra s).returned = some ())) := by
  obtain ⟨c1, c2, _, c4⟩ := e1000_init_cases H xregs ta ra s
  obtain ⟨_, _, _, _, _, _, _, _, _, _, _, _, _, _, hrctl⟩ := regs_distinct_facts H hregs
  simp only [List.mem_cons, List.mem_singleton, List.not_mem_nil, not_or, or_false] at hrctl
  obtain ⟨q1, q2, _, q4, q5, q6, q7, _⟩ := hrctl
  refine ⟨?_, ?_⟩
  · intro hex
    by_cases hsz : (TX_RING_SIZE * H.sizeof_tx_desc) % 128 = 0
    · obtain ⟨hp, ev, ht, hw⟩ := c2 hsz hex
      refine ⟨hp, ?_⟩
      rw [new_events_of_append _ _ ev ht, hw]
      simp only [List.mem_cons, List.mem_singleton, List.not_mem_nil, not_or, or_false]
      exact ⟨q1, q2, q1, q4, q5, q6, q7⟩
    · obtain ⟨hp, ev, ht, hw⟩ := c1 hsz
      refine ⟨hp, ?_⟩
      rw [new_events_of_append _ _ ev ht, hw]
      simp only [List.mem_cons, List.mem_singleton, List.not_mem_nil, not_or, or_false]
      exact ⟨q1, q2, q1, q4⟩
  · intro htx hrx
    have hsz : (TX_RING_SIZE * H.sizeof_tx_desc) % 128 = 0 := by
      rw [htx]
      decide
    have hsz2 : (RX_RING_SIZE * H.sizeof_rx_desc) % 128 = 0 := by
      rw [hrx]
      decide
    have hok : (∀ k, k < RX_RING_SIZE → s.allocs.getD k 0 ≠ 0) →
        (e1000_init H xregs ta ra s).returned = some () :=
      fun hall => (c4 hsz hall hsz2).1
    refine ⟨⟨?_, fun hex => (c2 hsz hex).1⟩, hok⟩
    intro hp
    by_contra hne
    have hall : ∀ k, k < RX_RING_SIZE → s.allocs.getD k 0 ≠ 0 :=
      fun k hk hz => hne ⟨k, hk, hz⟩
    have hr := hok hall
    rw [returned_of_panicked _ hp] at hr
    exact Option.noConfusion hr

/-- Witness of C16: `e1000_init` on the machine `boot_short`, whose allocator fails at the
sixth call. -/
theorem e1000_init_alloc_failure_panics_witness :
    e1000_dev.regs_distinct ∧
    (∃ k, k < RX_RING_SIZE ∧ boot_short.allocs.getD k 0 = 0) ∧
    (e1000_init e1000_dev (fun _ => 0) 0x80021000 0x80021100 boot_short).panicked = true ∧
    e1000_dev.E1000_RCTL ∉ reg_writes (new_events boot_short
      (e1000_init e1000_dev (fun _ => 0) 0x80021000 0x80021100 boot_short).state) :=
  ⟨by unfold Hdr.regs_distinct; decide, ⟨5, by decide, by decide⟩,
    ((e1000_init_alloc_failure_panics e1000_dev (fun _ => 0) 0x80021000 0x80021100 boot_short
      (by unfold Hdr.regs_distinct; decide)).1 ⟨5, by decide, by decide⟩).1,
    ((e1000_init_alloc_failure_panics e1000_dev (fun _ => 0) 0x80021000 0x80021100 boot_short
      (by unfold Hdr.regs_distinct; decide)).1 ⟨5, by decide, by decide⟩).2⟩

/-- C17, on the machine `boot` after `e1000_init`: with the status of TX slot 0 written back
as 3 (done bit and one more bit), `e1000_transmit` returns -1 although the done bit is set;
with the status of RX slot 7 written back as 3 (done bit and end-of-packet bit),
`e1000_recv` delivers nothing although the done bit is set, while with the status 1 it
delivers the buffer of slot 7. -/
theorem status_compared_as_a_whole :
    ((hw_tx_status after_init 0 3).tx_ring 0).status &&& e1000_dev.E1000_TXD_STAT_DD ≠ 0 ∧
    (e1000_transmit e1000_dev 0x87e00000 (hw_tx_status after_init 0 3)).returned
      = some (-1) ∧
    ((hw_rx_status after_init 7 60 3).rx_ring 7).status &&& e1000_dev.E1000_RXD_STAT_DD ≠ 0 ∧
    (e1000_recv e1000_dev (hw_rx_status after_init 7 60 3)).returned = some () ∧
    delivered (e1000_recv e1000_dev (hw_rx_status after_init 7 60 3)).state.trace = [] ∧
    delivered (e1000_recv e1000_dev (hw_rx_status after_init 7 60 1)).state.trace
      = [0x87f08000] := by
  decide

/-- C18, on the machine `boot`: after `e1000_init` the RX tail register is 15, so the slot
after it is slot 0; yet with slot 0 alone marked done `e1000_recv` delivers nothing, and
with slot 7 alone marked done it delivers the buffer of slot 7: the slot it inspects is
slot 7 = (E1000_RDT + 1) mod 16, from the index of the register and not from its value. -/
theorem recv_first_slot_is_constant :
    after_init.regs e1000_dev.E1000_RDT = 15 ∧
    delivered (e1000_recv e1000_dev (hw_rx_status after_init 0 60 1)).state.trace = [] ∧
    delivered (e1000_recv e1000_dev (hw_rx_status after_init 7 60 1)).state.trace
      = [after_init.rx_mbufs 7] ∧
    (e1000_dev.E1000_RDT + 1) % RX_RING_SIZE = 7 := by
  decide

end E1000
